import Mathlib

/-!
# draco_decoder: buffer layout, buffer writers and the mesh handle cache

A shallow embedding of `src/cpp/decoder_api.cc`.

* The external Draco decoder is a parameter (`Decoder`): it turns a compressed byte
  stream into a `Mesh` or fails.
* A destination buffer is a function from byte offsets (relative to `out_ptr`) to bytes;
  the write cursor `out` is kept as the offset `out - out_ptr`, so `out_end` is `out_len`.
* In the writers the `int` quantities (`num_faces`, `num_indices`, `num_points`, `dim`)
  only bound loops over unsigned indices and are natural numbers.  In
  `debug_mesh_buffer_len` they enter `size_t` arithmetic, so the conversions from
  `uint32_t` to `int` (`to_int`) and from `int` to `size_t` (`int_to_size_t`) are explicit.
  Unsigned fixed-width quantities wrap explicitly (`u32`, `u64`, and `size_t` with a width
  `size_bits` given as a parameter).
* In `decode_point_cloud` a store past the end of the array `point` has no defined result
  (`none`).
* The host is little-endian (x86-64, wasm32): the object representation of a scalar is
  the list of its bytes, least significant first.
* Calls run one after the other (`run_calls`), except in the section on concurrent calls,
  where one `decode_mesh_to_buffer` call and one `release_mesh_cache` call interleave at the
  granularity of their critical sections (`run_schedule`).
-/

namespace DracoDecoder

/-! ## Data model -/

/-- The element types of `draco::DataType` (the enum is declared in the Draco headers). -/
inductive DataType where
  | DT_INVALID
  | DT_INT8
  | DT_UINT8
  | DT_INT16
  | DT_UINT16
  | DT_INT32
  | DT_UINT32
  | DT_INT64
  | DT_UINT64
  | DT_FLOAT32
  | DT_FLOAT64
  | DT_BOOL
  deriving DecidableEq, Repr

/-- The part of `draco::PointAttribute` the code reads.  `ConvertValue i k` is component
`k` of the value with attribute-value index `i`, converted to the attribute's own element
type and given as the bit pattern of that scalar. -/
structure PointAttribute where
  unique_id : Int
  data_type : DataType
  num_components : Nat
  mapped_index : Nat → Nat
  ConvertValue : Nat → Nat → Nat

/-- The part of `draco::Mesh` the code reads: `face i j` is `mesh->face(i)[j].value()`,
`attributes` lists `mesh->attribute(0)`, ..., `mesh->attribute(num_attributes() - 1)`. -/
structure Mesh where
  num_points : Nat
  num_faces : Nat
  face : Nat → Nat → Nat
  attributes : List PointAttribute

/-- The external decoder, `draco::Decoder::DecodeMeshFromBuffer`: `none` when the status
is not ok. -/
abbrev Decoder := List Nat → Option Mesh

/-- Destination memory, addressed by the offset from `out_ptr`. -/
abbrev Memory := Nat → Nat

/-- The write position: the destination memory and `out - out_ptr`. -/
structure Cursor where
  mem : Memory
  out : Nat

/-- Conversion to `uint32_t`. -/
def u32 (x : Nat) : Nat := x % 2 ^ 32

/-- Conversion to `uint64_t`. -/
def u64 (x : Nat) : Nat := x % 2 ^ 64

/-- Conversion to `size_t` of width `size_bits`. -/
def to_size_t (size_bits : Nat) (x : Nat) : Nat := x % 2 ^ size_bits

/-- Conversion of a `uint32_t` to `int` (two's complement): values from `2 ^ 31` on become
negative. -/
def to_int (x : Nat) : Int :=
  if x % 2 ^ 32 < 2 ^ 31 then ((x % 2 ^ 32 : Nat) : Int)
  else ((x % 2 ^ 32 : Nat) : Int) - ((2 ^ 32 : Nat) : Int)

/-- Conversion of an `int` to `size_t` of width `size_bits`: the value modulo
`2 ^ size_bits`, so a negative `int` is sign-extended. -/
def int_to_size_t (size_bits : Nat) (v : Int) : Nat :=
  (v % ((2 ^ size_bits : Nat) : Int)).toNat

/-- The object representation of a scalar of `size` bytes with bit pattern `x`. -/
def object_bytes (size : Nat) (x : Nat) : List Nat :=
  (List.range size).map (fun b => x / 256 ^ b % 256)

/-- The effect of `memcpy(out, src, size)` on the destination: `size` bytes of `src` are
stored from offset `dst` on. -/
def memcpy (mem : Memory) (dst : Nat) (src : List Nat) (size : Nat) : Memory :=
  fun i => if dst ≤ i ∧ i < dst + size then src.getD (i - dst) 0 else mem i

/-- A `for` loop whose body may `return 0`: the body runs on each item in turn and the
first failing body ends the loop. -/
def for_each {α : Type} (body : α → Cursor → Bool × Cursor) : List α → Cursor → Bool × Cursor
  | [], c => (true, c)
  | x :: xs, c =>
    match body x c with
    | (true, c') => for_each body xs c'
    | (false, c') => (false, c')

/-- The scratch array `v[4] = {}` after `attr->ConvertValue(attr->mapped_index(j), v)`. -/
def scratch (attr : PointAttribute) (j : Nat) : List Nat :=
  (List.range 4).map (attr.ConvertValue (attr.mapped_index j))

/-! ## Scalar codec -/

/-- The function `sizeof_data_type` (decoder_api.cc:20). -/
def sizeof_data_type (type : DataType) : Nat :=
  match type with
  | .DT_INT8 => 1
  | .DT_UINT8 => 1
  | .DT_INT16 => 2
  | .DT_UINT16 => 2
  | .DT_INT32 => 4
  | .DT_UINT32 => 4
  | .DT_FLOAT32 => 4
  | .DT_INT64 => 8
  | .DT_UINT64 => 8
  | .DT_FLOAT64 => 8
  | _ => 0

/-! ## decode_mesh_direct_write -/

/-- The lambda `write_scalar` of `decode_mesh_direct_write` (decoder_api.cc:87); `src` is
the scalar `v[k]` the pointer refers to. -/
def decode_mesh_direct_write.write_scalar (out_end : Nat) (src : Nat) (type : DataType)
    (c : Cursor) : Bool × Cursor :=
  let size := sizeof_data_type type
  if c.out + size > out_end then (false, c)
  else (true, { mem := memcpy c.mem c.out (object_bytes size src) size, out := c.out + size })

/-- The body of the inner index loop for `use_u16` (decoder_api.cc:107-111). -/
def decode_mesh_direct_write.write_index_u16 (out_end : Nat) (value : Nat) (c : Cursor) :
    Bool × Cursor :=
  let val := value % 2 ^ 16
  if c.out + 2 > out_end then (false, c)
  else (true, { mem := memcpy c.mem c.out (object_bytes 2 val) 2, out := c.out + 2 })

/-- The body of the inner index loop otherwise (decoder_api.cc:118-122). -/
def decode_mesh_direct_write.write_index_u32 (out_end : Nat) (value : Nat) (c : Cursor) :
    Bool × Cursor :=
  let val := value % 2 ^ 32
  if c.out + 4 > out_end then (false, c)
  else (true, { mem := memcpy c.mem c.out (object_bytes 4 val) 4, out := c.out + 4 })

/-- The local record `AttrEntry` of `decode_mesh_direct_write` (decoder_api.cc:128). -/
structure decode_mesh_direct_write.AttrEntry where
  attr : PointAttribute
  attribute_id : Int

/-- One case of the `switch`: `for (int k = 0; k < dim; ++k) if (!write_scalar(&v[k], type))
return 0;`.  Reading `v[k]` for `k >= 4` is outside the array; the model reads 0 there. -/
def decode_mesh_direct_write.write_components (out_end : Nat) (v : List Nat) (dim : Nat)
    (type : DataType) (c : Cursor) : Bool × Cursor :=
  for_each (fun k => decode_mesh_direct_write.write_scalar out_end (v.getD k 0) type)
    (List.range dim) c

/-- The `switch (type)` executed for point `j` (decoder_api.cc:160-227). -/
def decode_mesh_direct_write.write_point (out_end : Nat) (attr : PointAttribute) (dim : Nat)
    (type : DataType) (j : Nat) (c : Cursor) : Bool × Cursor :=
  match type with
  | .DT_INT8 => decode_mesh_direct_write.write_components out_end (scratch attr j) dim type c
  | .DT_UINT8 => decode_mesh_direct_write.write_components out_end (scratch attr j) dim type c
  | .DT_INT16 => decode_mesh_direct_write.write_components out_end (scratch attr j) dim type c
  | .DT_UINT16 => decode_mesh_direct_write.write_components out_end (scratch attr j) dim type c
  | .DT_INT32 => decode_mesh_direct_write.write_components out_end (scratch attr j) dim type c
  | .DT_UINT32 => decode_mesh_direct_write.write_components out_end (scratch attr j) dim type c
  | .DT_FLOAT32 => decode_mesh_direct_write.write_components out_end (scratch attr j) dim type c
  | .DT_FLOAT64 => decode_mesh_direct_write.write_components out_end (scratch attr j) dim type c
  | _ => (false, c)

/-- The index loops of `decode_mesh_direct_write` (decoder_api.cc:96-125). -/
def decode_mesh_direct_write.write_indices (out_end : Nat) (mesh : Mesh) (c : Cursor) :
    Bool × Cursor :=
  let num_faces := mesh.num_faces
  let num_indices := num_faces * 3
  let use_u16 := decide (num_indices ≤ 65535)
  if use_u16 then
    for_each (fun i => for_each
      (fun j => decode_mesh_direct_write.write_index_u16 out_end (mesh.face i j)) [0, 1, 2])
      (List.range num_faces) c
  else
    for_each (fun i => for_each
      (fun j => decode_mesh_direct_write.write_index_u32 out_end (mesh.face i j)) [0, 1, 2])
      (List.range num_faces) c

/-- The attribute collection and `std::sort` of `decode_mesh_direct_write`
(decoder_api.cc:133-149).  The result of `std::sort` is an ascending arrangement of the
entries; the order among entries with equal ids is not fixed by the standard, the model
keeps their relative order. -/
def decode_mesh_direct_write.sorted_attrs (mesh : Mesh) :
    List decode_mesh_direct_write.AttrEntry :=
  List.insertionSort (fun a b => a.attribute_id ≤ b.attribute_id)
    (mesh.attributes.map (fun attr => { attr := attr, attribute_id := attr.unique_id }))

/-- The attribute loop of `decode_mesh_direct_write` (decoder_api.cc:152-229). -/
def decode_mesh_direct_write.write_attributes (out_end : Nat) (mesh : Mesh) (c : Cursor) :
    Bool × Cursor :=
  let num_points := mesh.num_points
  for_each (fun (entry : decode_mesh_direct_write.AttrEntry) =>
      let attr := entry.attr
      let dim := attr.num_components
      let type := attr.data_type
      for_each (fun j => decode_mesh_direct_write.write_point out_end attr dim type j)
        (List.range num_points))
    (decode_mesh_direct_write.sorted_attrs mesh) c

/-- The function `decode_mesh_direct_write` (decoder_api.cc:71): the returned `size_t` and the
destination memory after the call. -/
def decode_mesh_direct_write (dec : Decoder) (data : List Nat) (out_ptr : Memory)
    (out_len : Nat) : Nat × Memory :=
  match dec data with
  | none => (0, out_ptr)
  | some mesh =>
    let out : Cursor := { mem := out_ptr, out := 0 }
    let out_end := out_len
    match decode_mesh_direct_write.write_indices out_end mesh out with
    | (false, out) => (0, out.mem)
    | (true, out) =>
      match decode_mesh_direct_write.write_attributes out_end mesh out with
      | (false, out) => (0, out.mem)
      | (true, out) => (out.out, out.mem)

/-! ## debug_mesh_buffer_len -/

/-- The function `debug_mesh_buffer_len` (decoder_api.cc:234); `size` is a `size_t` of
`size_bits` bits.  `num_faces`, `num_indices`, `num_points` and `dim` are `int`s: the counts
are converted from `uint32_t`, and an `int` that meets a `size_t` in a product is converted
to `size_t`.  The product `num_faces * 3` is the mathematical one (signed overflow is
undefined behaviour). -/
def debug_mesh_buffer_len (size_bits : Nat) (dec : Decoder) (data : List Nat) : Nat :=
  match dec data with
  | none => 0
  | some mesh =>
    let num_faces : Int := to_int mesh.num_faces
    let num_indices : Int := num_faces * 3
    let num_points : Int := to_int mesh.num_points
    let size := 0
    let index_bytes :=
      if num_indices ≤ 65535 then
        to_size_t size_bits (int_to_size_t size_bits num_indices * 2)
      else
        to_size_t size_bits (int_to_size_t size_bits num_indices * 4)
    let size := to_size_t size_bits (size + index_bytes)
    mesh.attributes.foldl (fun size attr =>
      let dim : Int := attr.num_components
      to_size_t size_bits (size + sizeof_data_type attr.data_type *
        int_to_size_t size_bits num_points * int_to_size_t size_bits dim)) size

/-! ## Mesh handle cache -/

/-- The globals `g_mesh_cache` and `g_next_handle` (decoder_api.cc:16-17); the spin lock
`g_cache_lock` is free between calls of a sequential run. -/
structure CacheState where
  g_mesh_cache : Nat → Option Mesh
  g_next_handle : Nat

/-- The state at process start: an empty map and `g_next_handle{1}`. -/
def CacheState.init : CacheState :=
  { g_mesh_cache := fun _ => none, g_next_handle := 1 }

/-- The function `cache_mesh` (decoder_api.cc:272): the returned handle and the state after the call. -/
def cache_mesh (dec : Decoder) (data : List Nat) (s : CacheState) : Nat × CacheState :=
  match dec data with
  | none => (0, s)
  | some mesh =>
    let handle := s.g_next_handle
    (handle,
      { g_next_handle := u64 (s.g_next_handle + 1),
        g_mesh_cache := fun k => if k = handle then some mesh else s.g_mesh_cache k })

/-- The function `release_mesh_cache` (decoder_api.cc:294). -/
def release_mesh_cache (handle : Nat) (s : CacheState) : CacheState :=
  { s with g_mesh_cache := fun k => if k = handle then none else s.g_mesh_cache k }

/-- Modelled from the spec: the record `MeshAttribute` is declared in the generated ffi
header, which is not among the sources; its fields are those of the attribute entries of
`get_mesh_config` (§6), 32-bit unsigned. -/
structure MeshAttribute where
  dim : Nat
  unique_id : Int
  data_type : Nat
  offset : Nat
  length : Nat
  deriving DecidableEq, Repr

/-- Modelled from the spec: the record `MeshConfig` is declared in the generated ffi
header, which is not among the sources; its fields are those of `get_mesh_config` (§6),
the counts 32-bit unsigned. -/
structure MeshConfig where
  vertex_count : Nat
  index_count : Nat
  index_length : Nat
  attributes : List MeshAttribute
  deriving DecidableEq, Repr

/-- A default-constructed `MeshConfig`. -/
def MeshConfig.empty : MeshConfig :=
  { vertex_count := 0, index_count := 0, index_length := 0, attributes := [] }

/-- The local record `AttrEntry` of `get_mesh_config` (decoder_api.cc:327). -/
structure get_mesh_config.AttrEntry where
  attr : PointAttribute
  unique_id : Int

/-- The attribute collection and `std::sort` of `get_mesh_config` (decoder_api.cc:332-346). -/
def get_mesh_config.sorted_attrs (mesh : Mesh) : List get_mesh_config.AttrEntry :=
  List.insertionSort (fun a b => a.unique_id ≤ b.unique_id)
    (mesh.attributes.map (fun attr => { attr := attr, unique_id := attr.unique_id }))

/-- The `switch` of `get_mesh_config` that converts the Draco element type
(decoder_api.cc:359-384). -/
def get_mesh_config.type_code (type : DataType) : Nat :=
  match type with
  | .DT_INT8 => 0
  | .DT_UINT8 => 1
  | .DT_INT16 => 2
  | .DT_UINT16 => 3
  | .DT_INT32 => 4
  | .DT_UINT32 => 5
  | .DT_FLOAT32 => 6
  | _ => 1

/-- The body of the attribute loop of `get_mesh_config` (decoder_api.cc:351-392): the state
is `config.attributes` and `current_offset`. -/
def get_mesh_config.add_attribute (vertex_count : Nat)
    (state : List MeshAttribute × Nat) (entry : get_mesh_config.AttrEntry) :
    List MeshAttribute × Nat :=
  let attr := entry.attr
  let current_offset := state.2
  let dim := u32 attr.num_components
  let length := u32 (dim * vertex_count * sizeof_data_type attr.data_type)
  let mesh_attr : MeshAttribute :=
    { dim := dim
      unique_id := attr.unique_id
      data_type := get_mesh_config.type_code attr.data_type
      offset := current_offset
      length := length }
  (state.1 ++ [mesh_attr], u32 (current_offset + mesh_attr.length))

/-- The function `get_mesh_config` (decoder_api.cc:302): the returned flag and the content of `config`
after the call.  The cache is not modified. -/
def get_mesh_config (s : CacheState) (handle : Nat) (config : MeshConfig) :
    Bool × MeshConfig :=
  match s.g_mesh_cache handle with
  | none => (false, config)
  | some mesh =>
    let vertex_count := u32 mesh.num_points
    let index_count := u32 (mesh.num_faces * 3)
    let index_length :=
      if index_count ≤ 65535 then u32 (index_count * 2) else u32 (index_count * 4)
    let current_offset := index_length
    let state := (get_mesh_config.sorted_attrs mesh).foldl
      (get_mesh_config.add_attribute vertex_count) (config.attributes, current_offset)
    (true,
      { vertex_count := vertex_count
        index_count := index_count
        index_length := index_length
        attributes := state.1 })

/-! ## decode_mesh_to_buffer -/

/-- The lambda `write_scalar` of `decode_mesh_to_buffer` (decoder_api.cc:416). -/
def decode_mesh_to_buffer.write_scalar (out_end : Nat) (src : Nat) (type : DataType)
    (c : Cursor) : Bool × Cursor :=
  let size := sizeof_data_type type
  if c.out + size > out_end then (false, c)
  else (true, { mem := memcpy c.mem c.out (object_bytes size src) size, out := c.out + size })

/-- The body of the inner index loop for `use_u16` (decoder_api.cc:434-438). -/
def decode_mesh_to_buffer.write_index_u16 (out_end : Nat) (value : Nat) (c : Cursor) :
    Bool × Cursor :=
  let val := value % 2 ^ 16
  if c.out + 2 > out_end then (false, c)
  else (true, { mem := memcpy c.mem c.out (object_bytes 2 val) 2, out := c.out + 2 })

/-- The body of the inner index loop otherwise (decoder_api.cc:445-449). -/
def decode_mesh_to_buffer.write_index_u32 (out_end : Nat) (value : Nat) (c : Cursor) :
    Bool × Cursor :=
  let val := value % 2 ^ 32
  if c.out + 4 > out_end then (false, c)
  else (true, { mem := memcpy c.mem c.out (object_bytes 4 val) 4, out := c.out + 4 })

/-- The local record `AttrEntry` of `decode_mesh_to_buffer` (decoder_api.cc:455). -/
structure decode_mesh_to_buffer.AttrEntry where
  attr : PointAttribute
  unique_id : Int

/-- One case of the `switch` of `decode_mesh_to_buffer`: the loop over the components. -/
def decode_mesh_to_buffer.write_components (out_end : Nat) (v : List Nat) (dim : Nat)
    (type : DataType) (c : Cursor) : Bool × Cursor :=
  for_each (fun k => decode_mesh_to_buffer.write_scalar out_end (v.getD k 0) type)
    (List.range dim) c

/-- The `switch (type)` executed for point `j` (decoder_api.cc:484-551). -/
def decode_mesh_to_buffer.write_point (out_end : Nat) (attr : PointAttribute) (dim : Nat)
    (type : DataType) (j : Nat) (c : Cursor) : Bool × Cursor :=
  match type with
  | .DT_INT8 => decode_mesh_to_buffer.write_components out_end (scratch attr j) dim type c
  | .DT_UINT8 => decode_mesh_to_buffer.write_components out_end (scratch attr j) dim type c
  | .DT_INT16 => decode_mesh_to_buffer.write_components out_end (scratch attr j) dim type c
  | .DT_UINT16 => decode_mesh_to_buffer.write_components out_end (scratch attr j) dim type c
  | .DT_INT32 => decode_mesh_to_buffer.write_components out_end (scratch attr j) dim type c
  | .DT_UINT32 => decode_mesh_to_buffer.write_components out_end (scratch attr j) dim type c
  | .DT_FLOAT32 => decode_mesh_to_buffer.write_components out_end (scratch attr j) dim type c
  | .DT_FLOAT64 => decode_mesh_to_buffer.write_components out_end (scratch attr j) dim type c
  | _ => (false, c)

/-- The index loops of `decode_mesh_to_buffer` (decoder_api.cc:425-452). -/
def decode_mesh_to_buffer.write_indices (out_end : Nat) (mesh : Mesh) (c : Cursor) :
    Bool × Cursor :=
  let num_faces := mesh.num_faces
  let use_u16 := decide (num_faces * 3 ≤ 65535)
  if use_u16 then
    for_each (fun i => for_each
      (fun j => decode_mesh_to_buffer.write_index_u16 out_end (mesh.face i j)) [0, 1, 2])
      (List.range num_faces) c
  else
    for_each (fun i => for_each
      (fun j => decode_mesh_to_buffer.write_index_u32 out_end (mesh.face i j)) [0, 1, 2])
      (List.range num_faces) c

/-- The attribute collection and `std::sort` of `decode_mesh_to_buffer`
(decoder_api.cc:460-474). -/
def decode_mesh_to_buffer.sorted_attrs (mesh : Mesh) : List decode_mesh_to_buffer.AttrEntry :=
  List.insertionSort (fun a b => a.unique_id ≤ b.unique_id)
    (mesh.attributes.map (fun attr => { attr := attr, unique_id := attr.unique_id }))

/-- The attribute loop of `decode_mesh_to_buffer` (decoder_api.cc:476-553). -/
def decode_mesh_to_buffer.write_attributes (out_end : Nat) (mesh : Mesh) (c : Cursor) :
    Bool × Cursor :=
  let num_points := mesh.num_points
  for_each (fun (entry : decode_mesh_to_buffer.AttrEntry) =>
      let attr := entry.attr
      let dim := attr.num_components
      let type := attr.data_type
      for_each (fun j => decode_mesh_to_buffer.write_point out_end attr dim type j)
        (List.range num_points))
    (decode_mesh_to_buffer.sorted_attrs mesh) c

/-- The function `decode_mesh_to_buffer` (decoder_api.cc:398): the returned `size_t` and the destination
memory after the call.  The cache is not modified. -/
def decode_mesh_to_buffer (s : CacheState) (handle : Nat) (out_ptr : Memory) (out_len : Nat) :
    Nat × Memory :=
  match s.g_mesh_cache handle with
  | none => (0, out_ptr)
  | some mesh =>
    let out : Cursor := { mem := out_ptr, out := 0 }
    let out_end := out_len
    match decode_mesh_to_buffer.write_indices out_end mesh out with
    | (false, out) => (0, out.mem)
    | (true, out) =>
      match decode_mesh_to_buffer.write_attributes out_end mesh out with
      | (false, out) => (0, out.mem)
      | (true, out) => (out.out, out.mem)

/-- One call of a run over the cache. -/
inductive CacheCall where
  | cache (data : List Nat)
  | release (handle : Nat)

/-- The state after one call. -/
def CacheCall.apply (dec : Decoder) (s : CacheState) : CacheCall → CacheState
  | .cache data => (cache_mesh dec data s).2
  | .release handle => release_mesh_cache handle s

/-- The state after a sequential run of calls. -/
def run_calls (dec : Decoder) (s : CacheState) (calls : List CacheCall) : CacheState :=
  calls.foldl (CacheCall.apply dec) s

/-- The values the `cache_mesh` calls of a sequential run return, in call order. -/
def returned_handles (dec : Decoder) : CacheState → List CacheCall → List Nat
  | _, [] => []
  | s, .cache data :: calls =>
    (cache_mesh dec data s).1 :: returned_handles dec (cache_mesh dec data s).2 calls
  | s, .release handle :: calls => returned_handles dec (release_mesh_cache handle s) calls

/-! ## Layout vocabulary of the statements -/

/-- The destination after the bytes `bytes` were stored from offset `dst` on. -/
def blit (mem : Memory) (dst : Nat) (bytes : List Nat) : Memory :=
  memcpy mem dst bytes bytes.length

/-- The byte width of one index (§4.3): 2 when `3 * num_faces <= 65535`, else 4. -/
def index_width (mesh : Mesh) : Nat :=
  if mesh.num_faces * 3 ≤ 65535 then 2 else 4

/-- The index block: for each face in ascending order its three components, each an
unsigned value of `index_width` bytes. -/
def index_block (mesh : Mesh) : List Nat :=
  (List.range mesh.num_faces).flatMap (fun i =>
    [0, 1, 2].flatMap (fun j =>
      object_bytes (index_width mesh) (mesh.face i j % 2 ^ (8 * index_width mesh))))

/-- The element types that have a case in the `switch` of the writers. -/
def writable (type : DataType) : Bool :=
  match type with
  | .DT_INT8 => true
  | .DT_UINT8 => true
  | .DT_INT16 => true
  | .DT_UINT16 => true
  | .DT_INT32 => true
  | .DT_UINT32 => true
  | .DT_FLOAT32 => true
  | .DT_FLOAT64 => true
  | _ => false

/-- The bytes of point `j` of an attribute: its first `num_components` scratch components. -/
def point_bytes (attr : PointAttribute) (j : Nat) : List Nat :=
  (List.range attr.num_components).flatMap (fun k =>
    object_bytes (sizeof_data_type attr.data_type) ((scratch attr j).getD k 0))

/-- The segment of an attribute: the bytes of the points `0, ..., num_points - 1`. -/
def attribute_bytes (num_points : Nat) (attr : PointAttribute) : List Nat :=
  (List.range num_points).flatMap (point_bytes attr)

/-- The values of an attribute as the attribute itself gives them: for each point in point
order the first `num_components` converted components, each of `element_size` bytes. -/
def attribute_values (num_points : Nat) (attr : PointAttribute) : List Nat :=
  (List.range num_points).flatMap (fun j =>
    (List.range attr.num_components).flatMap (fun k =>
      object_bytes (sizeof_data_type attr.data_type) (attr.ConvertValue (attr.mapped_index j) k)))

/-- Attribute Ordering (§4.2): the attributes by ascending `unique_id`. -/
def attribute_order (attrs : List PointAttribute) : List PointAttribute :=
  List.insertionSort (fun a b => a.unique_id ≤ b.unique_id) attrs

/-- The length of an attribute segment (§4.4), without any wrap. -/
def attribute_length (num_points : Nat) (attr : PointAttribute) : Nat :=
  num_points * attr.num_components * sizeof_data_type attr.data_type

/-- The size the layout requires (§4.4): the index block and every attribute segment,
without any wrap. -/
def layout_size (mesh : Mesh) : Nat :=
  mesh.num_faces * 3 * index_width mesh +
    (mesh.attributes.map (attribute_length mesh.num_points)).sum

/-- The whole output: the index block followed by the attribute segments in Attribute
Ordering. -/
def mesh_bytes (mesh : Mesh) : List Nat :=
  index_block mesh ++
    (attribute_order mesh.attributes).flatMap (attribute_bytes mesh.num_points)

/-- The sum of the `length` fields of a list of metadata entries. -/
def sum_lengths (attributes : List MeshAttribute) : Nat :=
  (attributes.map (fun a => a.length)).sum

/-- The writers reach no unsupported case of the `switch`: the mesh has no point (the
`switch` is never executed) or every attribute has a writable element type. -/
def supported (mesh : Mesh) : Prop :=
  mesh.num_points = 0 ∨ ∀ a ∈ mesh.attributes, writable a.data_type = true

/-- The metadata entries `get_mesh_config` appends for the attributes `attrs` taken in this
order, the running offset starting at `current_offset`. -/
def plan_entries (vertex_count : Nat) (current_offset : Nat) :
    List PointAttribute → List MeshAttribute
  | [] => []
  | attr :: attrs =>
    let length := u32 (u32 attr.num_components * vertex_count * sizeof_data_type attr.data_type)
    { dim := u32 attr.num_components
      unique_id := attr.unique_id
      data_type := get_mesh_config.type_code attr.data_type
      offset := current_offset
      length := length } :: plan_entries vertex_count (u32 (current_offset + length)) attrs

/-- Sequencing of two pieces of a writer: the second runs when the first did not fail. -/
def and_then (b1 b2 : Cursor → Bool × Cursor) (c : Cursor) : Bool × Cursor :=
  match b1 c with
  | (true, c') => b2 c'
  | (false, c') => (false, c')

/-- The value a writer returns and the destination it leaves: `out - out_ptr` after the
last loop, 0 after a `return 0`. -/
def finish (r : Bool × Cursor) : Nat × Memory :=
  match r with
  | (true, c) => (c.out, c.mem)
  | (false, c) => (0, c.mem)

/-- A piece of a writer that, when `ok` holds and `bytes` fit below `out_end`, stores
`bytes` at the cursor and advances it, and fails otherwise (the cursor being within the
destination); it never touches a byte before the cursor or from `out_end` on, and never
moves the cursor back. -/
def Writes (out_end : Nat) (body : Cursor → Bool × Cursor) (ok : Prop) (bytes : List Nat) :
    Prop :=
  ∀ c : Cursor,
    (ok → c.out + bytes.length ≤ out_end →
      body c = (true, { mem := blit c.mem c.out bytes, out := c.out + bytes.length })) ∧
    (c.out ≤ out_end → ¬ (ok ∧ c.out + bytes.length ≤ out_end) → (body c).1 = false) ∧
    (∀ i, i < c.out ∨ out_end ≤ i → (body c).2.mem i = c.mem i) ∧
    c.out ≤ (body c).2.out

/-! ## Concrete inputs -/

/-- An attribute over identically mapped points; component `k` of value `i` is
`16 * i + k + 1`. -/
def sample_attribute (unique_id : Int) (data_type : DataType) (num_components : Nat) :
    PointAttribute :=
  { unique_id := unique_id
    data_type := data_type
    num_components := num_components
    mapped_index := fun j => j
    ConvertValue := fun i k => 16 * i + k + 1 }

/-- A mesh of `num_faces` faces over `num_points` points; face `i` is `(i, i + 1, i + 2)`. -/
def sample_mesh (num_points num_faces : Nat) (attributes : List PointAttribute) : Mesh :=
  { num_points := num_points
    num_faces := num_faces
    face := fun i j => i + j
    attributes := attributes }

/-- A decoder that accepts every input and yields `mesh`. -/
def decoder_of (mesh : Mesh) : Decoder := fun _ => some mesh

/-- One triangle over three points with a 2-component UInt8 attribute of id 5 and a
1-component Int16 attribute of id 2, exposed in this order. -/
def triangle_mesh : Mesh :=
  sample_mesh 3 1 [sample_attribute 5 .DT_UINT8 2, sample_attribute 2 .DT_INT16 1]

/-- One point, no face, and one 1-component Int64 attribute. -/
def int64_mesh : Mesh :=
  sample_mesh 1 0 [sample_attribute 0 .DT_INT64 1]

/-- The mesh of 357913942 triangles `(0, 1, 2)` over three points with a 1-component UInt8
attribute of id 5: the index block has `4 * 3 * 357913942 = 2 ^ 32 + 8` bytes. -/
def many_faces_mesh : Mesh :=
  { num_points := 3
    num_faces := 357913942
    face := fun _ j => j
    attributes := [sample_attribute 5 .DT_UINT8 1] }

/-- The mesh of `2 ^ 30` points without faces, with a 1-component Float32 attribute of id 1
and a 1-component UInt8 attribute of id 2: the Float32 segment has `2 ^ 32` bytes. -/
def huge_mesh : Mesh :=
  sample_mesh (2 ^ 30) 0 [sample_attribute 1 .DT_FLOAT32 1, sample_attribute 2 .DT_UINT8 1]

/-- The mesh of `2 ^ 30` points without faces, with one 1-component Float64 attribute of
id 7: its segment has `2 ^ 33` bytes. -/
def huge_float64_mesh : Mesh :=
  sample_mesh (2 ^ 30) 0 [sample_attribute 7 .DT_FLOAT64 1]

/-- The mesh of `2 ^ 31` points without faces, with one 1-component UInt8 attribute of
id 0: the layout has `2 ^ 31` bytes. -/
def two_gib_mesh : Mesh :=
  sample_mesh (2 ^ 31) 0 [sample_attribute 0 .DT_UINT8 1]

/-- A destination filled with the byte 255. -/
def filled : Memory := fun _ => 255

/-- Two points, no face, and one 3-component Float64 attribute of id 7. -/
def float64_mesh : Mesh :=
  sample_mesh 2 0 [sample_attribute 7 .DT_FLOAT64 3]

/-- One triangle `(65536, 0, 1)` over 65537 points, without attributes: every face
component is a valid point index. -/
def wide_index_mesh : Mesh :=
  { num_points := 65537
    num_faces := 1
    face := fun _ j => if j = 0 then 65536 else j - 1
    attributes := [] }

/-- One triangle over three points with a 1-component Int64 attribute of id 5 and a
1-component Int16 attribute of id 2, exposed in this order. -/
def mixed_mesh : Mesh :=
  sample_mesh 3 1 [sample_attribute 5 .DT_INT64 1, sample_attribute 2 .DT_INT16 1]

/-! ## decode_point_cloud -/

/-- The part of `draco::PointAttribute` that `decode_point_cloud` reads: `GetValue i` is the
stored value with attribute-value index `i`, as the bytes that `GetValue` copies. -/
structure PositionAttribute where
  mapped_index : Nat → Nat
  GetValue : Nat → List Nat

/-- The part of `draco::PointCloud` that `decode_point_cloud` reads; `position` is
`GetNamedAttribute(POSITION)`, `none` for a null pointer. -/
structure PointCloud where
  num_points : Nat
  position : Option PositionAttribute

/-- The external decoder, `draco::Decoder::DecodePointCloudFromBuffer`: `none` when the
status is not ok. -/
abbrev PointCloudDecoder := List Nat → Option PointCloud

/-- The function `decode_point_cloud` (decoder_api.cc:41).  The array
`float point[3] = {0.0f}` is 12 zero bytes and `GetValue` copies the stored value over its
start, so a value of fewer than 12 bytes leaves the remaining bytes zero.  A value of more
than 12 bytes is copied past the end of the array: the call has no defined result, which
is `none` here; `some out` is a returned vector `out`. -/
def decode_point_cloud (dec : PointCloudDecoder) (data : List Nat) : Option (List Nat) :=
  match dec data with
  | none => some []
  | some pc =>
    match pc.position with
    | none => some []
    | some attr =>
      (List.range pc.num_points).foldl (fun out i =>
        match out with
        | none => none
        | some out =>
          let value := attr.GetValue (attr.mapped_index i)
          if 12 < value.length then none
          else
            let ptr := (List.range 12).map (fun j => value.getD j 0)
            some ((List.range 12).foldl (fun out j => out ++ [ptr.getD j 0]) out)) (some [])

/-- Four points whose positions are stored as 12 bytes each: byte `b` of the position of
point `i` is `12 * i + b`. -/
def four_points : PointCloud :=
  { num_points := 4
    position := some
      { mapped_index := fun i => i
        GetValue := fun i => (List.range 12).map (fun b => 12 * i + b) } }

/-- One point whose position is stored as 6 bytes, three 2-byte components `[1, 2]`,
`[3, 4]` and `[5, 6]`. -/
def short_position_cloud : PointCloud :=
  { num_points := 1
    position := some
      { mapped_index := fun i => i
        GetValue := fun _ => [1, 2, 3, 4, 5, 6] } }

/-! ## Concurrent calls on one handle -/

/-- The critical section of `decode_mesh_to_buffer` (decoder_api.cc:401-410): under the
lock the handle is looked up and the raw pointer `it->second.get()` is taken, then the lock
is cleared.  The pointer is identified with the handle whose entry owns the mesh; `none`
is the `return 0` for a handle that is not found. -/
def decode_mesh_to_buffer.lookup (s : CacheState) (handle : Nat) : Option Nat :=
  match s.g_mesh_cache handle with
  | none => none
  | some _ => some handle

/-- The rest of `decode_mesh_to_buffer` (decoder_api.cc:412-555), which runs without the
lock and reads the mesh through the raw pointer, in the state the cache has by then:
`none` when the entry that owned the mesh was erased, so that the mesh is destroyed and
the reads are reads of freed memory. -/
def decode_mesh_to_buffer.write (s : CacheState) (mesh : Nat) (out_ptr : Memory)
    (out_len : Nat) : Option (Nat × Memory) :=
  match s.g_mesh_cache mesh with
  | none => none
  | some mesh =>
    let out : Cursor := { mem := out_ptr, out := 0 }
    let out_end := out_len
    match decode_mesh_to_buffer.write_indices out_end mesh out with
    | (false, out) => some (0, out.mem)
    | (true, out) =>
      match decode_mesh_to_buffer.write_attributes out_end mesh out with
      | (false, out) => some (0, out.mem)
      | (true, out) => some (out.out, out.mem)

/-- What a `decode_mesh_to_buffer` call has done so far. -/
inductive WriterProgress where
  | not_started
  | holds_pointer (mesh : Nat)
  | returned (result : Nat × Memory)
  | read_destroyed_mesh

/-- The atomic steps of one `decode_mesh_to_buffer(handle, out_ptr, out_len)` call and one
concurrent `release_mesh_cache(handle)` call: each critical section is one step, and so is
the part of the writer that runs after its critical section. -/
inductive RaceStep where
  | writer_lookup
  | writer_write
  | release

/-- The cache and the progress of the writer. -/
structure RaceState where
  cache : CacheState
  writer : WriterProgress

/-- One step of the two concurrent calls on `handle`. -/
def RaceStep.apply (handle : Nat) (out_ptr : Memory) (out_len : Nat) (r : RaceState) :
    RaceStep → RaceState
  | .writer_lookup =>
    match r.writer with
    | .not_started =>
      match decode_mesh_to_buffer.lookup r.cache handle with
      | none => { r with writer := .returned (0, out_ptr) }
      | some mesh => { r with writer := .holds_pointer mesh }
    | _ => r
  | .writer_write =>
    match r.writer with
    | .holds_pointer mesh =>
      match decode_mesh_to_buffer.write r.cache mesh out_ptr out_len with
      | none => { r with writer := .read_destroyed_mesh }
      | some result => { r with writer := .returned result }
    | _ => r
  | .release => { r with cache := release_mesh_cache handle r.cache }

/-- The state after the steps of a schedule, starting with a writer that has not started. -/
def run_schedule (handle : Nat) (out_ptr : Memory) (out_len : Nat) (s : CacheState)
    (schedule : List RaceStep) : RaceState :=
  schedule.foldl (RaceStep.apply handle out_ptr out_len) { cache := s, writer := .not_started }

/-- The value the writer returned, if it returned. -/
def RaceState.returned_value (r : RaceState) : Option Nat :=
  match r.writer with
  | .returned result => some result.1
  | _ => none

/-- Whether the writer read a destroyed mesh. -/
def RaceState.read_destroyed (r : RaceState) : Bool :=
  match r.writer with
  | .read_destroyed_mesh => true
  | _ => false

/-! ## Lemmas on the destination memory and on loops -/

theorem length_object_bytes (size x : Nat) : (object_bytes size x).length = size := by
  simp [object_bytes]

theorem getD_object_bytes (size x i : Nat) (hi : i < size) :
    (object_bytes size x).getD i 0 = x / 256 ^ i % 256 := by
  unfold object_bytes
  rw [List.getD_eq_getElem _ _ (by simpa using hi)]
  simp

theorem blit_nil (mem : Memory) (dst : Nat) : blit mem dst [] = mem := by
  funext i
  simp [blit, memcpy]

theorem blit_append (mem : Memory) (dst : Nat) (b1 b2 : List Nat) :
    blit (blit mem dst b1) (dst + b1.length) b2 = blit mem dst (b1 ++ b2) := by
  funext i
  simp only [blit, memcpy, List.length_append]
  by_cases h2 : dst + b1.length ≤ i ∧ i < dst + b1.length + b2.length
  · rw [if_pos h2, if_pos (by omega), List.getD_append_right _ _ _ _ (by omega)]
    congr 1
    omega
  · rw [if_neg h2]
    by_cases h1 : dst ≤ i ∧ i < dst + b1.length
    · rw [if_pos h1, if_pos (by omega), List.getD_append _ _ _ _ (by omega)]
    · rw [if_neg h1, if_neg (by omega)]

theorem blit_outside (mem : Memory) (dst : Nat) (bytes : List Nat) (i : Nat)
    (h : i < dst ∨ dst + bytes.length ≤ i) : blit mem dst bytes i = mem i := by
  simp only [blit, memcpy]
  rw [if_neg (by omega)]

theorem blit_inside (mem : Memory) (dst : Nat) (bytes : List Nat) (i : Nat)
    (h : i < bytes.length) : blit mem dst bytes (dst + i) = bytes.getD i 0 := by
  simp only [blit, memcpy]
  rw [if_pos (by omega)]
  congr 1
  omega

theorem Writes.skip (out_end : Nat) : Writes out_end (fun c => (true, c)) True [] := by
  intro c
  refine ⟨?_, ?_, ?_, ?_⟩
  · intro _ _
    simp [blit_nil]
  · intro hc h
    simp at h
    omega
  · intro i _
    rfl
  · exact Nat.le_refl _

theorem Writes.seq {out_end : Nat} {b1 b2 : Cursor → Bool × Cursor} {ok1 ok2 : Prop}
    {bs1 bs2 : List Nat} (h1 : Writes out_end b1 ok1 bs1) (h2 : Writes out_end b2 ok2 bs2) :
    Writes out_end
      (and_then b1 b2) (ok1 ∧ ok2) (bs1 ++ bs2) := by
  intro c
  obtain ⟨s1, f1, m1, o1⟩ := h1 c
  cases hb : b1 c with
  | mk r c1 =>
    rw [hb] at f1 m1 o1
    cases r with
    | false =>
      have em : and_then b1 b2 c = (false, c1) := by
        simp only [and_then, hb]
      rw [em]
      refine ⟨?_, ?_, ?_, ?_⟩
      · intro hok hfit
        rw [List.length_append] at hfit
        have := s1 hok.1 (by omega)
        rw [hb] at this
        simp at this
      · intro _ _
        rfl
      · intro i hi
        exact m1 i hi
      · exact o1
    | true =>
      have em : and_then b1 b2 c = b2 c1 := by
        simp only [and_then, hb]
      rw [em]
      by_cases hle : c.out ≤ out_end
      · have hc1 : ok1 ∧ c.out + bs1.length ≤ out_end := by
          by_contra hne
          have := f1 hle hne
          simp at this
        have e1 := s1 hc1.1 hc1.2
        rw [hb] at e1
        have ec1 : c1 = { mem := blit c.mem c.out bs1, out := c.out + bs1.length } := by
          simpa using e1
        obtain ⟨s2, f2, m2, o2⟩ := h2 c1
        have hout : c1.out = c.out + bs1.length := by rw [ec1]
        have hmem : c1.mem = blit c.mem c.out bs1 := by rw [ec1]
        refine ⟨?_, ?_, ?_, ?_⟩
        · intro hok hfit
          rw [List.length_append] at hfit
          have := s2 hok.2 (by omega)
          rw [this, hout, hmem, blit_append, List.length_append, Nat.add_assoc]
        · intro _ hne
          apply f2 (by omega)
          intro hh
          apply hne
          refine ⟨⟨hc1.1, hh.1⟩, ?_⟩
          rw [List.length_append]
          omega
        · intro i hi
          rw [m2 i (by omega), hmem]
          exact blit_outside _ _ _ _ (by omega)
        · omega
      · obtain ⟨s2, f2, m2, o2⟩ := h2 c1
        have o1' : c.out ≤ c1.out := o1
        refine ⟨?_, ?_, ?_, ?_⟩
        · intro _ hfit
          omega
        · intro hc _
          omega
        · intro i hi
          rw [m2 i (by omega)]
          exact m1 i hi
        · omega

theorem Writes.congr {out_end : Nat} {body : Cursor → Bool × Cursor} {ok ok' : Prop}
    {bs bs' : List Nat} (h : Writes out_end body ok bs) (hok : ok ↔ ok') (hbs : bs = bs') :
    Writes out_end body ok' bs' := by
  subst hbs
  intro c
  obtain ⟨s1, f1, m1, o1⟩ := h c
  exact ⟨fun a b => s1 (hok.2 a) b, fun hc hne => f1 hc (fun hh => hne ⟨hok.1 hh.1, hh.2⟩),
    m1, o1⟩

theorem Writes.for_each {α : Type} {out_end : Nat} {body : α → Cursor → Bool × Cursor}
    {ok : α → Prop} {bytes : α → List Nat} (xs : List α)
    (h : ∀ x ∈ xs, Writes out_end (body x) (ok x) (bytes x)) :
    Writes out_end (DracoDecoder.for_each body xs) (∀ x ∈ xs, ok x) (xs.flatMap bytes) := by
  induction xs with
  | nil =>
    have e : DracoDecoder.for_each body [] = fun c => (true, c) := by
      funext c
      rfl
    rw [e]
    exact (Writes.skip out_end).congr (by simp) (by simp)
  | cons x xs ih =>
    have e : DracoDecoder.for_each body (x :: xs) =
        and_then (body x) (DracoDecoder.for_each body xs) := by
      funext c
      rfl
    rw [e]
    have hx := h x (List.mem_cons_self x xs)
    have hxs := ih (fun y hy => h y (List.mem_cons_of_mem x hy))
    exact (hx.seq hxs).congr (by simp) (by simp)

theorem for_each_map {α β : Type} (f : α → β) (body : β → Cursor → Bool × Cursor)
    (xs : List α) (c : Cursor) :
    for_each body (xs.map f) c = for_each (fun x => body (f x)) xs c := by
  induction xs generalizing c with
  | nil => rfl
  | cons x xs ih =>
    show (match body (f x) c with
      | (true, c') => for_each body (xs.map f) c'
      | (false, c') => (false, c')) =
      (match body (f x) c with
      | (true, c') => for_each (fun x => body (f x)) xs c'
      | (false, c') => (false, c'))
    rcases body (f x) c with ⟨_ | _, c1⟩
    · rfl
    · exact ih c1

theorem Writes.fail (out_end : Nat) (bytes : List Nat) :
    Writes out_end (fun c => (false, c)) False bytes := by
  intro c
  exact ⟨fun h _ => h.elim, fun _ _ => rfl, fun _ _ => rfl, Nat.le_refl _⟩

theorem Writes.store (out_end : Nat) (bytes : List Nat) (n : Nat) (hn : bytes.length = n) :
    Writes out_end
      (fun c => if c.out + n > out_end then (false, c)
        else (true, { mem := memcpy c.mem c.out bytes n, out := c.out + n }))
      True bytes := by
  subst hn
  intro c
  by_cases h : c.out + bytes.length > out_end
  · refine ⟨fun _ hf => by omega, fun _ _ => ?_, fun i _ => ?_, ?_⟩
    · simp [h]
    · simp [h]
    · simp [h]
  · refine ⟨fun _ _ => ?_, fun _ hne => ?_, fun i hi => ?_, ?_⟩
    · simp [h, blit]
    · exact absurd ⟨trivial, by omega⟩ hne
    · simp only [if_neg h, memcpy]
      rw [if_neg (by omega)]
    · simp [h]

theorem direct_write_scalar_writes (out_end src : Nat) (type : DataType) :
    Writes out_end (decode_mesh_direct_write.write_scalar out_end src type) True
      (object_bytes (sizeof_data_type type) src) :=
  Writes.store out_end _ _ (length_object_bytes _ _)

theorem direct_write_index_u16_writes (out_end value : Nat) :
    Writes out_end (decode_mesh_direct_write.write_index_u16 out_end value) True
      (object_bytes 2 (value % 2 ^ 16)) :=
  Writes.store out_end _ _ (length_object_bytes _ _)

theorem direct_write_index_u32_writes (out_end value : Nat) :
    Writes out_end (decode_mesh_direct_write.write_index_u32 out_end value) True
      (object_bytes 4 (value % 2 ^ 32)) :=
  Writes.store out_end _ _ (length_object_bytes _ _)

theorem direct_write_components_writes (out_end : Nat) (v : List Nat) (dim : Nat)
    (type : DataType) :
    Writes out_end (decode_mesh_direct_write.write_components out_end v dim type) True
      ((List.range dim).flatMap (fun k => object_bytes (sizeof_data_type type) (v.getD k 0))) :=
  (Writes.for_each (List.range dim)
    (fun k _ => direct_write_scalar_writes out_end (v.getD k 0) type)).congr (by simp) rfl

theorem direct_write_point_writes (out_end : Nat) (attr : PointAttribute) (dim : Nat)
    (type : DataType) (j : Nat) :
    Writes out_end (decode_mesh_direct_write.write_point out_end attr dim type j)
      (writable type = true)
      ((List.range dim).flatMap (fun k =>
        object_bytes (sizeof_data_type type) ((scratch attr j).getD k 0))) := by
  cases type
  case DT_INVALID => exact (Writes.fail out_end _).congr (by simp [writable]) rfl
  case DT_INT64 => exact (Writes.fail out_end _).congr (by simp [writable]) rfl
  case DT_UINT64 => exact (Writes.fail out_end _).congr (by simp [writable]) rfl
  case DT_BOOL => exact (Writes.fail out_end _).congr (by simp [writable]) rfl
  all_goals exact (direct_write_components_writes out_end _ dim _).congr (by simp [writable]) rfl

theorem direct_write_indices_writes (out_end : Nat) (mesh : Mesh) :
    Writes out_end (decode_mesh_direct_write.write_indices out_end mesh) True
      (index_block mesh) := by
  by_cases h : mesh.num_faces * 3 ≤ 65535
  · have e : decode_mesh_direct_write.write_indices out_end mesh =
        for_each (fun i => for_each
          (fun j => decode_mesh_direct_write.write_index_u16 out_end (mesh.face i j)) [0, 1, 2])
          (List.range mesh.num_faces) := by
      funext c
      simp [decode_mesh_direct_write.write_indices, h]
    rw [e]
    refine (Writes.for_each (List.range mesh.num_faces) (fun i _ =>
      (Writes.for_each [0, 1, 2] (fun j _ =>
        direct_write_index_u16_writes out_end (mesh.face i j))))).congr (by simp) ?_
    simp [index_block, index_width, h]
  · have e : decode_mesh_direct_write.write_indices out_end mesh =
        for_each (fun i => for_each
          (fun j => decode_mesh_direct_write.write_index_u32 out_end (mesh.face i j)) [0, 1, 2])
          (List.range mesh.num_faces) := by
      funext c
      simp [decode_mesh_direct_write.write_indices, h]
    rw [e]
    refine (Writes.for_each (List.range mesh.num_faces) (fun i _ =>
      (Writes.for_each [0, 1, 2] (fun j _ =>
        direct_write_index_u32_writes out_end (mesh.face i j))))).congr (by simp) ?_
    simp [index_block, index_width, h]

theorem direct_sorted_attrs_eq (mesh : Mesh) :
    decode_mesh_direct_write.sorted_attrs mesh =
      (attribute_order mesh.attributes).map
        (fun attr => { attr := attr, attribute_id := attr.unique_id }) := by
  unfold decode_mesh_direct_write.sorted_attrs attribute_order
  exact (List.map_insertionSort (fun a b : PointAttribute => a.unique_id ≤ b.unique_id)
    (fun a b : decode_mesh_direct_write.AttrEntry => a.attribute_id ≤ b.attribute_id)
    _ _ (fun a _ b _ => Iff.rfl)).symm

theorem direct_write_attributes_eq (out_end : Nat) (mesh : Mesh) (c : Cursor) :
    decode_mesh_direct_write.write_attributes out_end mesh c =
      for_each (fun attr => for_each (fun j => decode_mesh_direct_write.write_point out_end
          attr attr.num_components attr.data_type j) (List.range mesh.num_points))
        (attribute_order mesh.attributes) c := by
  unfold decode_mesh_direct_write.write_attributes
  rw [direct_sorted_attrs_eq, for_each_map]

/-! ## Lengths of the output pieces -/

theorem length_flatMap_const {α : Type} (xs : List α) (f : α → List Nat) (n : Nat)
    (h : ∀ x ∈ xs, (f x).length = n) : (xs.flatMap f).length = xs.length * n := by
  induction xs with
  | nil => simp
  | cons x xs ih =>
    rw [List.flatMap_cons, List.length_append, h x (List.mem_cons_self x xs),
      ih (fun y hy => h y (List.mem_cons_of_mem x hy)), List.length_cons]
    ring

theorem length_index_block (mesh : Mesh) :
    (index_block mesh).length = mesh.num_faces * 3 * index_width mesh := by
  unfold index_block
  rw [length_flatMap_const _ _ (3 * index_width mesh), List.length_range]
  · ring
  · intro i _
    rw [length_flatMap_const _ _ (index_width mesh)]
    · rfl
    · intro j _
      exact length_object_bytes _ _

theorem length_point_bytes (attr : PointAttribute) (j : Nat) :
    (point_bytes attr j).length = attr.num_components * sizeof_data_type attr.data_type := by
  unfold point_bytes
  rw [length_flatMap_const _ _ (sizeof_data_type attr.data_type), List.length_range]
  intro k _
  exact length_object_bytes _ _

theorem length_attribute_bytes (num_points : Nat) (attr : PointAttribute) :
    (attribute_bytes num_points attr).length = attribute_length num_points attr := by
  unfold attribute_bytes attribute_length
  rw [length_flatMap_const _ _ (attr.num_components * sizeof_data_type attr.data_type),
    List.length_range]
  · ring
  · intro j _
    exact length_point_bytes attr j

theorem length_flatMap_attribute_bytes (num_points : Nat) (attrs : List PointAttribute) :
    (attrs.flatMap (attribute_bytes num_points)).length =
      (attrs.map (attribute_length num_points)).sum := by
  induction attrs with
  | nil => simp
  | cons a attrs ih =>
    rw [List.flatMap_cons, List.length_append, ih, length_attribute_bytes, List.map_cons,
      List.sum_cons]

theorem attribute_order_perm (attrs : List PointAttribute) :
    List.Perm (attribute_order attrs) attrs :=
  List.perm_insertionSort _ attrs

theorem sum_attribute_order (num_points : Nat) (attrs : List PointAttribute) :
    ((attribute_order attrs).map (attribute_length num_points)).sum =
      (attrs.map (attribute_length num_points)).sum :=
  ((attribute_order_perm attrs).map _).sum_eq

theorem length_mesh_bytes (mesh : Mesh) : (mesh_bytes mesh).length = layout_size mesh := by
  unfold mesh_bytes layout_size
  rw [List.length_append, length_index_block, length_flatMap_attribute_bytes,
    sum_attribute_order]

/-! ## The direct writer as one piece -/

theorem direct_write_attributes_writes (out_end : Nat) (mesh : Mesh) :
    Writes out_end (decode_mesh_direct_write.write_attributes out_end mesh) (supported mesh)
      ((attribute_order mesh.attributes).flatMap (attribute_bytes mesh.num_points)) := by
  have e : decode_mesh_direct_write.write_attributes out_end mesh =
      for_each (fun attr => for_each (fun j => decode_mesh_direct_write.write_point out_end
          attr attr.num_components attr.data_type j) (List.range mesh.num_points))
        (attribute_order mesh.attributes) := by
    funext c
    exact direct_write_attributes_eq out_end mesh c
  rw [e]
  refine (Writes.for_each (attribute_order mesh.attributes) (fun attr _ =>
    (Writes.for_each (List.range mesh.num_points) (fun j _ =>
      direct_write_point_writes out_end attr attr.num_components attr.data_type j)))).congr
    ?_ rfl
  unfold supported
  constructor
  · intro h
    by_cases hp : mesh.num_points = 0
    · exact Or.inl hp
    · right
      intro a ha
      exact h a ((attribute_order_perm mesh.attributes).mem_iff.2 ha) 0
        (List.mem_range.2 (Nat.pos_of_ne_zero hp))
  · intro h a ha j hj
    rcases h with h | h
    · rw [h] at hj
      simp at hj
    · exact h a ((attribute_order_perm mesh.attributes).mem_iff.1 ha)

theorem direct_write_all_writes (out_end : Nat) (mesh : Mesh) :
    Writes out_end
      (and_then (decode_mesh_direct_write.write_indices out_end mesh)
        (decode_mesh_direct_write.write_attributes out_end mesh))
      (supported mesh) (mesh_bytes mesh) :=
  ((direct_write_indices_writes out_end mesh).seq
    (direct_write_attributes_writes out_end mesh)).congr (by simp) rfl

theorem direct_write_eq (dec : Decoder) (data : List Nat) (mesh : Mesh) (out_ptr : Memory)
    (out_len : Nat) (hd : dec data = some mesh) :
    decode_mesh_direct_write dec data out_ptr out_len =
      finish (and_then (decode_mesh_direct_write.write_indices out_len mesh)
        (decode_mesh_direct_write.write_attributes out_len mesh)
        { mem := out_ptr, out := 0 }) := by
  unfold decode_mesh_direct_write and_then
  rw [hd]
  simp only []
  rcases decode_mesh_direct_write.write_indices out_len mesh { mem := out_ptr, out := 0 }
    with ⟨_ | _, c1⟩
  · rfl
  · simp only []
    rcases decode_mesh_direct_write.write_attributes out_len mesh c1 with ⟨_ | _, c2⟩
    · rfl
    · rfl

/-- The direct writer succeeds on a supported mesh when the layout fits: it returns the
layout size and the destination holds the whole output. -/
theorem direct_write_success (dec : Decoder) (data : List Nat) (mesh : Mesh)
    (out_ptr : Memory) (out_len : Nat) (hd : dec data = some mesh) (hs : supported mesh)
    (hN : layout_size mesh ≤ out_len) :
    decode_mesh_direct_write dec data out_ptr out_len =
      (layout_size mesh, blit out_ptr 0 (mesh_bytes mesh)) := by
  rw [direct_write_eq dec data mesh out_ptr out_len hd]
  have h := (direct_write_all_writes out_len mesh { mem := out_ptr, out := 0 }).1 hs
    (by rw [length_mesh_bytes]; simpa using hN)
  rw [h]
  simp [finish, length_mesh_bytes]

/-- The direct writer returns 0 unless the mesh is supported and the layout fits. -/
theorem direct_write_failure (dec : Decoder) (data : List Nat) (mesh : Mesh)
    (out_ptr : Memory) (out_len : Nat) (hd : dec data = some mesh)
    (h : ¬ (supported mesh ∧ layout_size mesh ≤ out_len)) :
    (decode_mesh_direct_write dec data out_ptr out_len).1 = 0 := by
  rw [direct_write_eq dec data mesh out_ptr out_len hd]
  have hf := (direct_write_all_writes out_len mesh { mem := out_ptr, out := 0 }).2.1
    (Nat.zero_le _) (by rw [length_mesh_bytes]; simpa using h)
  revert hf
  generalize and_then (decode_mesh_direct_write.write_indices out_len mesh)
    (decode_mesh_direct_write.write_attributes out_len mesh) { mem := out_ptr, out := 0 } = r
  rcases r with ⟨_ | _, c⟩
  · intro _
    rfl
  · intro hf
    simp at hf

theorem to_buffer_write_indices_eq (out_end : Nat) (mesh : Mesh) :
    decode_mesh_to_buffer.write_indices out_end mesh =
      decode_mesh_direct_write.write_indices out_end mesh := rfl

theorem to_buffer_write_point_eq (out_end : Nat) (attr : PointAttribute) (dim : Nat)
    (type : DataType) (j : Nat) :
    decode_mesh_to_buffer.write_point out_end attr dim type j =
      decode_mesh_direct_write.write_point out_end attr dim type j := rfl

theorem to_buffer_sorted_attrs_eq (mesh : Mesh) :
    decode_mesh_to_buffer.sorted_attrs mesh =
      (attribute_order mesh.attributes).map
        (fun attr => { attr := attr, unique_id := attr.unique_id }) := by
  unfold decode_mesh_to_buffer.sorted_attrs attribute_order
  exact (List.map_insertionSort (fun a b : PointAttribute => a.unique_id ≤ b.unique_id)
    (fun a b : decode_mesh_to_buffer.AttrEntry => a.unique_id ≤ b.unique_id)
    _ _ (fun a _ b _ => Iff.rfl)).symm

theorem to_buffer_write_attributes_eq (out_end : Nat) (mesh : Mesh) (c : Cursor) :
    decode_mesh_to_buffer.write_attributes out_end mesh c =
      decode_mesh_direct_write.write_attributes out_end mesh c := by
  rw [direct_write_attributes_eq]
  unfold decode_mesh_to_buffer.write_attributes
  rw [to_buffer_sorted_attrs_eq, for_each_map]
  rfl

/-- The cached writer on a handle is the direct writer on the mesh the handle resolves to. -/
theorem to_buffer_eq_direct (s : CacheState) (handle : Nat) (out_ptr : Memory)
    (out_len : Nat) :
    decode_mesh_to_buffer s handle out_ptr out_len =
      decode_mesh_direct_write (fun _ => s.g_mesh_cache handle) [] out_ptr out_len := by
  unfold decode_mesh_to_buffer decode_mesh_direct_write
  cases s.g_mesh_cache handle with
  | none => rfl
  | some mesh =>
    simp only [to_buffer_write_indices_eq, to_buffer_write_attributes_eq]

/-! ## The planner -/

theorem foldl_add_mod (n : Nat) {α : Type} (g : α → Nat) (l : List α) (s0 : Nat) :
    l.foldl (fun size a => (size + g a) % n) (s0 % n) = (s0 + (l.map g).sum) % n := by
  induction l generalizing s0 with
  | nil => simp
  | cons a l ih =>
    rw [List.foldl_cons, Nat.mod_add_mod, ih (s0 + g a), List.map_cons, List.sum_cons,
      Nat.add_assoc]

theorem to_int_of_lt (x : Nat) (h : x < 2 ^ 31) : to_int x = (x : Int) := by
  unfold to_int
  have h1 : x % 2 ^ 32 = x := Nat.mod_eq_of_lt (by omega)
  rw [h1, if_pos h]

theorem int_to_size_t_natCast (size_bits n : Nat) :
    int_to_size_t size_bits (n : Int) = n % 2 ^ size_bits := by
  unfold int_to_size_t
  rw [← Int.natCast_mod, Int.toNat_natCast]

theorem sum_map_modEq {α : Type} (m : Nat) (g g' : α → Nat) (l : List α)
    (h : ∀ a ∈ l, g a ≡ g' a [MOD m]) : (l.map g).sum ≡ (l.map g').sum [MOD m] := by
  induction l with
  | nil => exact Nat.ModEq.refl _
  | cons a l ih =>
    rw [List.map_cons, List.map_cons, List.sum_cons, List.sum_cons]
    exact (h a (List.mem_cons_self a l)).add (ih (fun b hb => h b (List.mem_cons_of_mem a hb)))

/-- While `3 * num_faces` stays within `int`, the planner returns, as a `size_t`, the index
bytes plus the attribute sizes as the code multiplies them. -/
theorem debug_mesh_buffer_len_raw (size_bits : Nat) (dec : Decoder) (data : List Nat)
    (mesh : Mesh) (hd : dec data = some mesh) (hfaces : mesh.num_faces * 3 < 2 ^ 31) :
    debug_mesh_buffer_len size_bits dec data =
      to_size_t size_bits (mesh.num_faces * 3 * index_width mesh +
        (mesh.attributes.map (fun a =>
          sizeof_data_type a.data_type * int_to_size_t size_bits (to_int mesh.num_points) *
            int_to_size_t size_bits (a.num_components : Int))).sum) := by
  unfold debug_mesh_buffer_len
  rw [hd]
  simp only [to_size_t, Nat.zero_add]
  have hF : to_int mesh.num_faces * 3 = ((mesh.num_faces * 3 : Nat) : Int) := by
    rw [to_int_of_lt mesh.num_faces (by omega)]
    push_cast
    rfl
  rw [hF, int_to_size_t_natCast]
  have hcond : (((mesh.num_faces * 3 : Nat) : Int) ≤ 65535) ↔ mesh.num_faces * 3 ≤ 65535 := by
    omega
  have h0 : (if ((mesh.num_faces * 3 : Nat) : Int) ≤ 65535 then
        mesh.num_faces * 3 % 2 ^ size_bits * 2 % 2 ^ size_bits
      else mesh.num_faces * 3 % 2 ^ size_bits * 4 % 2 ^ size_bits) % 2 ^ size_bits =
      (mesh.num_faces * 3 * index_width mesh) % 2 ^ size_bits := by
    unfold index_width
    by_cases h : mesh.num_faces * 3 ≤ 65535
    · rw [if_pos (hcond.2 h), if_pos h, Nat.mod_mod]
      exact (Nat.mod_modEq _ _).mul_right 2
    · rw [if_neg (fun hh => h (hcond.1 hh)), if_neg h, Nat.mod_mod]
      exact (Nat.mod_modEq _ _).mul_right 4
  rw [h0]
  exact foldl_add_mod (2 ^ size_bits)
    (fun attr : PointAttribute =>
      sizeof_data_type attr.data_type * int_to_size_t size_bits (to_int mesh.num_points) *
        int_to_size_t size_bits (attr.num_components : Int))
    mesh.attributes (mesh.num_faces * 3 * index_width mesh)

/-- While `3 * num_faces` and `num_points` stay within `int`, the planner returns the layout
size as a `size_t`. -/
theorem debug_mesh_buffer_len_eq (size_bits : Nat) (dec : Decoder) (data : List Nat)
    (mesh : Mesh) (hd : dec data = some mesh) (hfaces : mesh.num_faces * 3 < 2 ^ 31)
    (hpoints : mesh.num_points < 2 ^ 31) :
    debug_mesh_buffer_len size_bits dec data = to_size_t size_bits (layout_size mesh) := by
  rw [debug_mesh_buffer_len_raw size_bits dec data mesh hd hfaces]
  unfold to_size_t layout_size
  apply Nat.ModEq.add_left
  apply sum_map_modEq
  intro a _
  rw [to_int_of_lt mesh.num_points hpoints, int_to_size_t_natCast, int_to_size_t_natCast]
  have e : attribute_length mesh.num_points a =
      sizeof_data_type a.data_type * mesh.num_points * a.num_components := by
    unfold attribute_length
    ring
  rw [e]
  exact ((Nat.ModEq.refl _).mul (Nat.mod_modEq _ _)).mul (Nat.mod_modEq _ _)

theorem u32_mul3 (a b c : Nat) : u32 (u32 a * u32 b * c) = u32 (a * b * c) := by
  unfold u32
  exact Nat.ModEq.mul_right c ((Nat.mod_modEq a _).mul (Nat.mod_modEq b _))

theorem foldl_add_attribute (vertex_count : Nat) (entries : List get_mesh_config.AttrEntry)
    (acc : List MeshAttribute) (off : Nat) :
    (entries.foldl (get_mesh_config.add_attribute vertex_count) (acc, off)).1 =
      acc ++ plan_entries vertex_count off (entries.map (fun e => e.attr)) := by
  induction entries generalizing acc off with
  | nil => simp [plan_entries]
  | cons e entries ih =>
    rw [List.foldl_cons]
    have hstep : get_mesh_config.add_attribute vertex_count (acc, off) e =
        (acc ++ [{ dim := u32 e.attr.num_components
                   unique_id := e.attr.unique_id
                   data_type := get_mesh_config.type_code e.attr.data_type
                   offset := off
                   length := u32 (u32 e.attr.num_components * vertex_count *
                     sizeof_data_type e.attr.data_type) }],
          u32 (off + u32 (u32 e.attr.num_components * vertex_count *
            sizeof_data_type e.attr.data_type))) := rfl
    rw [hstep, ih]
    simp [plan_entries]

theorem config_sorted_attrs_eq (mesh : Mesh) :
    (get_mesh_config.sorted_attrs mesh).map (fun e => e.attr) =
      attribute_order mesh.attributes := by
  unfold get_mesh_config.sorted_attrs attribute_order
  rw [← List.map_insertionSort (fun a b : PointAttribute => a.unique_id ≤ b.unique_id)
    (fun a b : get_mesh_config.AttrEntry => a.unique_id ≤ b.unique_id)
    (fun attr => { attr := attr, unique_id := attr.unique_id }) _ (fun a _ b _ => Iff.rfl)]
  rw [List.map_map]
  exact List.map_id _

/-- What `get_mesh_config` stores for a present handle. -/
theorem get_mesh_config_eq (s : CacheState) (handle : Nat) (config : MeshConfig)
    (mesh : Mesh) (hc : s.g_mesh_cache handle = some mesh) :
    get_mesh_config s handle config =
      (true,
        { vertex_count := u32 mesh.num_points
          index_count := u32 (mesh.num_faces * 3)
          index_length :=
            if u32 (mesh.num_faces * 3) ≤ 65535 then u32 (u32 (mesh.num_faces * 3) * 2)
            else u32 (u32 (mesh.num_faces * 3) * 4)
          attributes := config.attributes ++
            plan_entries (u32 mesh.num_points)
              (if u32 (mesh.num_faces * 3) ≤ 65535 then u32 (u32 (mesh.num_faces * 3) * 2)
                else u32 (u32 (mesh.num_faces * 3) * 4))
              (attribute_order mesh.attributes) }) := by
  unfold get_mesh_config
  rw [hc]
  simp only [foldl_add_attribute, config_sorted_attrs_eq]

theorem attribute_length_le_sum (num_points : Nat) (attrs : List PointAttribute)
    (a : PointAttribute) (ha : a ∈ attrs) :
    attribute_length num_points a ≤ (attrs.map (attribute_length num_points)).sum := by
  induction attrs with
  | nil => simp at ha
  | cons b attrs ih =>
    rw [List.map_cons, List.sum_cons]
    rcases List.mem_cons.1 ha with h | h
    · subst h
      omega
    · have := ih h
      omega

theorem index_bytes_le_layout_size (mesh : Mesh) :
    mesh.num_faces * 3 * index_width mesh ≤ layout_size mesh := by
  unfold layout_size
  omega

theorem attribute_length_le_layout_size (mesh : Mesh) (a : PointAttribute)
    (ha : a ∈ mesh.attributes) : attribute_length mesh.num_points a ≤ layout_size mesh := by
  have := attribute_length_le_sum mesh.num_points mesh.attributes a ha
  unfold layout_size
  omega

theorem two_le_index_width (mesh : Mesh) : 2 ≤ index_width mesh := by
  unfold index_width
  split <;> omega

theorem config_index_count (mesh : Mesh) (h : mesh.num_faces * 3 * index_width mesh < 2 ^ 32) :
    u32 (mesh.num_faces * 3) = mesh.num_faces * 3 := by
  have h2 := two_le_index_width mesh
  have : mesh.num_faces * 3 ≤ mesh.num_faces * 3 * index_width mesh :=
    Nat.le_mul_of_pos_right _ (by omega)
  exact Nat.mod_eq_of_lt (by omega)

theorem config_index_length (mesh : Mesh)
    (h : mesh.num_faces * 3 * index_width mesh < 2 ^ 32) :
    (if u32 (mesh.num_faces * 3) ≤ 65535 then u32 (u32 (mesh.num_faces * 3) * 2)
      else u32 (u32 (mesh.num_faces * 3) * 4)) = mesh.num_faces * 3 * index_width mesh := by
  rw [config_index_count mesh h]
  unfold index_width at h ⊢
  split
  · rename_i h1
    rw [if_pos h1] at h
    exact Nat.mod_eq_of_lt h
  · rename_i h1
    rw [if_neg h1] at h
    exact Nat.mod_eq_of_lt h

theorem entry_length (num_points : Nat) (a : PointAttribute)
    (h : attribute_length num_points a < 2 ^ 32) :
    u32 (u32 a.num_components * u32 num_points * sizeof_data_type a.data_type) =
      attribute_length num_points a := by
  rw [u32_mul3]
  unfold attribute_length at h ⊢
  have e : a.num_components * num_points * sizeof_data_type a.data_type =
      num_points * a.num_components * sizeof_data_type a.data_type := by ring
  rw [e]
  exact Nat.mod_eq_of_lt h

theorem plan_entries_lengths (num_points off : Nat) (attrs : List PointAttribute)
    (h : ∀ a ∈ attrs, attribute_length num_points a < 2 ^ 32) :
    (plan_entries (u32 num_points) off attrs).map (fun e => e.length) =
      attrs.map (attribute_length num_points) := by
  induction attrs generalizing off with
  | nil => rfl
  | cons a attrs ih =>
    simp only [plan_entries, List.map_cons]
    rw [ih _ (fun b hb => h b (List.mem_cons_of_mem a hb)),
      entry_length num_points a (h a (List.mem_cons_self a attrs))]

/-- When the layout fits in 32 bits, the metadata of a present handle adds up to the
layout size. -/
theorem config_total (s : CacheState) (handle : Nat) (mesh : Mesh)
    (hc : s.g_mesh_cache handle = some mesh) (hfit : layout_size mesh < 2 ^ 32) :
    (get_mesh_config s handle MeshConfig.empty).2.index_length +
      sum_lengths (get_mesh_config s handle MeshConfig.empty).2.attributes =
        layout_size mesh := by
  have hi := index_bytes_le_layout_size mesh
  rw [get_mesh_config_eq s handle MeshConfig.empty mesh hc]
  simp only [MeshConfig.empty, List.nil_append, sum_lengths]
  rw [config_index_length mesh (by omega), plan_entries_lengths, sum_attribute_order]
  · rfl
  · intro a ha
    have := attribute_length_le_layout_size mesh a
      ((attribute_order_perm mesh.attributes).mem_iff.1 ha)
    omega

theorem getD_scratch (attr : PointAttribute) (j k : Nat) (hk : k < 4) :
    (scratch attr j).getD k 0 = attr.ConvertValue (attr.mapped_index j) k := by
  unfold scratch
  rw [List.getD_eq_getElem _ _ (by simpa using hk)]
  simp

theorem flatMap_congr_mem {α : Type} (xs : List α) (f g : α → List Nat)
    (h : ∀ x ∈ xs, f x = g x) : xs.flatMap f = xs.flatMap g := by
  induction xs with
  | nil => rfl
  | cons x xs ih =>
    rw [List.flatMap_cons, List.flatMap_cons, h x (List.mem_cons_self x xs),
      ih (fun y hy => h y (List.mem_cons_of_mem x hy))]

theorem attribute_bytes_eq_values (num_points : Nat) (attr : PointAttribute)
    (h : attr.num_components ≤ 4) :
    attribute_bytes num_points attr = attribute_values num_points attr := by
  unfold attribute_bytes attribute_values point_bytes
  apply flatMap_congr_mem
  intro j _
  apply flatMap_congr_mem
  intro k hk
  rw [getD_scratch attr j k (by have := List.mem_range.1 hk; omega)]

/-- The metadata entries planned from offset `off` describe the memory that holds the
attribute segments from `off` on. -/
theorem plan_entries_segments (num_points : Nat) (M : Memory) (attrs : List PointAttribute)
    (off : Nat) (hfit : off + (attrs.map (attribute_length num_points)).sum < 2 ^ 32)
    (hdim : ∀ a ∈ attrs, a.num_components < 2 ^ 32)
    (hM : ∀ i, i < (attrs.flatMap (attribute_bytes num_points)).length →
      M (off + i) = (attrs.flatMap (attribute_bytes num_points)).getD i 0) :
    ∀ e ∈ plan_entries (u32 num_points) off attrs, ∃ p ∈ attrs,
      e.unique_id = p.unique_id ∧ e.dim = p.num_components ∧
      e.length = attribute_length num_points p ∧
      ∀ i, i < e.length → M (e.offset + i) = (attribute_bytes num_points p).getD i 0 := by
  induction attrs generalizing off with
  | nil =>
    intro e he
    simp [plan_entries] at he
  | cons a attrs ih =>
    rw [List.map_cons, List.sum_cons] at hfit
    have hlen : u32 (u32 a.num_components * u32 num_points * sizeof_data_type a.data_type) =
        attribute_length num_points a := entry_length num_points a (by omega)
    intro e he
    simp only [plan_entries, List.mem_cons] at he
    rcases he with he | he
    · refine ⟨a, List.mem_cons_self a attrs, ?_, ?_, ?_, ?_⟩
      · rw [he]
      · rw [he]
        exact Nat.mod_eq_of_lt (hdim a (List.mem_cons_self a attrs))
      · rw [he]
        exact hlen
      · intro i hi
        rw [he] at hi ⊢
        simp only [] at hi ⊢
        rw [hlen] at hi
        rw [hM i (by rw [List.flatMap_cons, List.length_append, length_attribute_bytes]; omega),
          List.flatMap_cons, List.getD_append _ _ _ _ (by rw [length_attribute_bytes]; exact hi)]
    · rw [hlen] at he
      have hoff : u32 (off + attribute_length num_points a) =
          off + attribute_length num_points a := Nat.mod_eq_of_lt (by omega)
      rw [hoff] at he
      obtain ⟨p, hp, h1, h2, h3, h4⟩ := ih (off + attribute_length num_points a)
        (by omega) (fun b hb => hdim b (List.mem_cons_of_mem a hb))
        (by
          intro i hi
          rw [Nat.add_assoc, hM (attribute_length num_points a + i)
            (by rw [List.flatMap_cons, List.length_append, length_attribute_bytes]; omega),
            List.flatMap_cons, List.getD_append_right _ _ _ _
              (by rw [length_attribute_bytes]; omega), length_attribute_bytes]
          congr 1
          omega)
        e he
      exact ⟨p, List.mem_cons_of_mem a hp, h1, h2, h3, h4⟩

/-- A nonzero return of the direct writer means success: the mesh is supported, the layout
fits, and the destination holds the whole output. -/
theorem direct_write_of_ne_zero (dec : Decoder) (data : List Nat) (mesh : Mesh)
    (out_ptr : Memory) (out_len : Nat) (hd : dec data = some mesh)
    (h : (decode_mesh_direct_write dec data out_ptr out_len).1 ≠ 0) :
    supported mesh ∧ layout_size mesh ≤ out_len ∧
      decode_mesh_direct_write dec data out_ptr out_len =
        (layout_size mesh, blit out_ptr 0 (mesh_bytes mesh)) := by
  have hs : supported mesh ∧ layout_size mesh ≤ out_len := by
    by_contra hne
    exact h (direct_write_failure dec data mesh out_ptr out_len hd hne)
  exact ⟨hs.1, hs.2, direct_write_success dec data mesh out_ptr out_len hd hs.1 hs.2⟩

/-! ## Attribute ordering -/

theorem finish_mem (r : Bool × Cursor) : (finish r).2 = r.2.mem := by
  rcases r with ⟨_ | _, c⟩ <;> rfl

/-- When the index block fits, the direct writer leaves it at the start of the destination,
whatever happens to the attributes. -/
theorem direct_write_index_block (dec : Decoder) (data : List Nat) (mesh : Mesh)
    (out_ptr : Memory) (out_len : Nat) (hd : dec data = some mesh)
    (hN : mesh.num_faces * 3 * index_width mesh ≤ out_len) (i : Nat)
    (hi : i < mesh.num_faces * 3 * index_width mesh) :
    (decode_mesh_direct_write dec data out_ptr out_len).2 i = (index_block mesh).getD i 0 := by
  rw [direct_write_eq dec data mesh out_ptr out_len hd, finish_mem]
  have h1 := (direct_write_indices_writes out_len mesh { mem := out_ptr, out := 0 }).1
    trivial (by rw [length_index_block]; simpa using hN)
  unfold and_then
  rw [h1]
  simp only []
  rw [(direct_write_attributes_writes out_len mesh _).2.2.1 i
    (Or.inl (by rw [length_index_block]; simpa using hi))]
  have := blit_inside out_ptr 0 (index_block mesh) i (by rw [length_index_block]; exact hi)
  rw [Nat.zero_add] at this
  simpa using this

/-! ## The bytes of the index block -/

theorem getD_flatMap_chunk {α : Type} (f : α → List Nat) (n : Nat) (xs : List α)
    (hlen : ∀ x ∈ xs, (f x).length = n) (i b : Nat) (x : α) (hx : xs[i]? = some x)
    (hb : b < n) : (xs.flatMap f).getD (n * i + b) 0 = (f x).getD b 0 := by
  induction xs generalizing i with
  | nil => simp at hx
  | cons y ys ih =>
    have hy := hlen y (List.mem_cons_self y ys)
    cases i with
    | zero =>
      simp only [List.getElem?_cons_zero, Option.some.injEq] at hx
      rw [Nat.mul_zero, Nat.zero_add, List.flatMap_cons, ← hx,
        List.getD_append _ _ _ _ (by omega)]
    | succ i =>
      simp only [List.getElem?_cons_succ] at hx
      have e : n * (i + 1) + b - (f y).length = n * i + b := by
        rw [hy, Nat.mul_succ]
        omega
      rw [List.flatMap_cons, List.getD_append_right _ _ _ _ (by rw [hy, Nat.mul_succ]; omega),
        e, ih (fun z hz => hlen z (List.mem_cons_of_mem y hz)) i hx]

theorem byte_of_truncated (x w b : Nat) (hb : b < w) :
    x % 2 ^ (8 * w) / 256 ^ b % 256 = x / 256 ^ b % 256 := by
  have e1 : (2 : Nat) ^ (8 * w) = 256 ^ b * (256 * 256 ^ (w - b - 1)) := by
    rw [← pow_succ', ← pow_add, show b + (w - b - 1 + 1) = w by omega, pow_mul]
    norm_num
  rw [e1, Nat.mod_mul_right_div_self, Nat.mod_mul_right_mod]

/-- The byte `b` of the value at position `3 * f + j` of the index block is the byte `b`
of component `j` of face `f`. -/
theorem getD_index_block (mesh : Mesh) (f j b : Nat) (hf : f < mesh.num_faces) (hj : j < 3)
    (hb : b < index_width mesh) :
    (index_block mesh).getD (index_width mesh * (3 * f + j) + b) 0 =
      mesh.face f j / 256 ^ b % 256 := by
  have hpos : index_width mesh * (3 * f + j) + b =
      3 * index_width mesh * f + (index_width mesh * j + b) := by ring
  have hjb : index_width mesh * j + b < 3 * index_width mesh := by
    have : index_width mesh * j ≤ index_width mesh * 2 := Nat.mul_le_mul_left _ (by omega)
    omega
  have hj3 : [0, 1, 2][j]? = some j := by
    interval_cases j <;> rfl
  unfold index_block
  rw [hpos, getD_flatMap_chunk _ (3 * index_width mesh) (List.range mesh.num_faces)
      (fun i _ => by
        rw [length_flatMap_const _ _ (index_width mesh) (fun _ _ => length_object_bytes _ _)]
        rfl)
      f _ f (by simp [hf]) hjb,
    getD_flatMap_chunk _ (index_width mesh) [0, 1, 2]
      (fun _ _ => length_object_bytes _ _) j b j hj3 hb,
    getD_object_bytes _ _ _ hb, byte_of_truncated _ _ _ hb]

/-! ## C1: planner and direct writer -/

/-- C1 (as stated, refuted): the mesh `int64_mesh` decodes successfully, the planner
predicts 8 bytes for its Int64 attribute, and with a destination of exactly 8 bytes the
direct writer returns 0, not 8. -/
theorem planner_writer_disagree_on_int64 :
    decoder_of int64_mesh [] = some int64_mesh ∧
      debug_mesh_buffer_len 64 (decoder_of int64_mesh) [] = 8 ∧
      (decode_mesh_direct_write (decoder_of int64_mesh) [] filled 8).1 = 0 :=
  ⟨rfl, by decide, by decide⟩

/-- C1 (amended): for every compressed input that decodes to a mesh that has no point or
whose attributes all have one of the eight writable element types, whose point count and
index count `3 * num_faces` are within the range of `int`, and whose layout size is
representable as a `size_t`, and every capacity `N` at least `debug_mesh_buffer_len`, the
direct writer returns exactly `debug_mesh_buffer_len`. -/
theorem planner_writer_size_agreement (size_bits : Nat) (dec : Decoder) (data : List Nat)
    (mesh : Mesh) (out_ptr : Memory) (N : Nat) (hd : dec data = some mesh)
    (hw : mesh.num_points = 0 ∨ ∀ a ∈ mesh.attributes, writable a.data_type = true)
    (hpoints : mesh.num_points < 2 ^ 31) (hfaces : mesh.num_faces * 3 < 2 ^ 31)
    (hfit : layout_size mesh < 2 ^ size_bits)
    (hN : debug_mesh_buffer_len size_bits dec data ≤ N) :
    (decode_mesh_direct_write dec data out_ptr N).1 =
      debug_mesh_buffer_len size_bits dec data := by
  have hl : debug_mesh_buffer_len size_bits dec data = layout_size mesh := by
    rw [debug_mesh_buffer_len_eq size_bits dec data mesh hd hfaces hpoints]
    exact Nat.mod_eq_of_lt hfit
  rw [hl] at hN ⊢
  rw [direct_write_success dec data mesh out_ptr N hd hw hN]

/-- C1 (amended), at the triangle mesh with a 64-bit `size_t` and 32 bytes of capacity. -/
theorem planner_writer_size_agreement_witness :
    debug_mesh_buffer_len 64 (decoder_of triangle_mesh) [] = 18 ∧
      (decode_mesh_direct_write (decoder_of triangle_mesh) [] filled 32).1 =
        debug_mesh_buffer_len 64 (decoder_of triangle_mesh) [] :=
  ⟨by decide,
    planner_writer_size_agreement 64 (decoder_of triangle_mesh) [] triangle_mesh filled 32 rfl
      (Or.inr (by decide)) (by decide) (by decide) (by decide) (by decide)⟩

/-! ## C2: metadata and cached writer -/

/-- C2 (as stated, refuted): `cache_mesh` on `int64_mesh` returns handle 1; the metadata
queried into an empty config has `index_length` plus attribute lengths equal to 8, and with
a destination of exactly 8 bytes `decode_mesh_to_buffer` returns 0, not 8. -/
theorem metadata_writer_disagree_on_int64 :
    (cache_mesh (decoder_of int64_mesh) [] CacheState.init).1 = 1 ∧
      (get_mesh_config (cache_mesh (decoder_of int64_mesh) [] CacheState.init).2 1
        MeshConfig.empty).2.index_length +
        sum_lengths (get_mesh_config (cache_mesh (decoder_of int64_mesh) [] CacheState.init).2 1
          MeshConfig.empty).2.attributes = 8 ∧
      (decode_mesh_to_buffer (cache_mesh (decoder_of int64_mesh) [] CacheState.init).2 1
        filled 8).1 = 0 :=
  ⟨by decide, by decide, by decide⟩

/-- C2 (amended): for every live handle whose mesh has no point or only attributes of the
eight writable element types, and a layout that fits in 32 bits, if `get_mesh_config` is
called on an empty config and `N` is at least `index_length` plus the sum of the attribute
lengths, then `decode_mesh_to_buffer` returns exactly that sum. -/
theorem metadata_writer_agreement (s : CacheState) (handle : Nat) (mesh : Mesh)
    (out_ptr : Memory) (N : Nat) (hc : s.g_mesh_cache handle = some mesh)
    (hw : mesh.num_points = 0 ∨ ∀ a ∈ mesh.attributes, writable a.data_type = true)
    (hfit : layout_size mesh < 2 ^ 32)
    (hN : (get_mesh_config s handle MeshConfig.empty).2.index_length +
      sum_lengths (get_mesh_config s handle MeshConfig.empty).2.attributes ≤ N) :
    (decode_mesh_to_buffer s handle out_ptr N).1 =
      (get_mesh_config s handle MeshConfig.empty).2.index_length +
        sum_lengths (get_mesh_config s handle MeshConfig.empty).2.attributes := by
  rw [config_total s handle mesh hc hfit] at hN ⊢
  rw [to_buffer_eq_direct,
    direct_write_success (fun _ => s.g_mesh_cache handle) [] mesh out_ptr N hc hw hN]

/-- C2 (amended), at the handle `cache_mesh` returns for the triangle mesh, with 32 bytes
of capacity. -/
theorem metadata_writer_agreement_witness :
    (cache_mesh (decoder_of triangle_mesh) [] CacheState.init).1 = 1 ∧
      (decode_mesh_to_buffer (cache_mesh (decoder_of triangle_mesh) [] CacheState.init).2 1
        filled 32).1 = 18 :=
  ⟨by decide,
    (metadata_writer_agreement (cache_mesh (decoder_of triangle_mesh) [] CacheState.init).2 1
      triangle_mesh filled 32 rfl (Or.inr (by decide)) (by decide) (by decide)).trans
      (by decide)⟩

/-! ## C3: the writer puts every attribute where the metadata says -/

/-- C3 (as stated, refuted): the mesh `many_faces_mesh` has 357913942 faces and one
1-component UInt8 attribute over 3 points. With a capacity of `2 ^ 33` bytes
`decode_mesh_to_buffer` succeeds and returns 4294967307, while `get_mesh_config` reports
`index_length` 8 and the attribute at offset 8 with length 3: the byte at offset 8 is the
low byte of the third index (2), not the first value of the attribute (1). -/
theorem writer_misses_wrapped_offset :
    (decode_mesh_to_buffer (cache_mesh (decoder_of many_faces_mesh) [] CacheState.init).2 1
      filled (2 ^ 33)).1 = 4294967307 ∧
    (get_mesh_config (cache_mesh (decoder_of many_faces_mesh) [] CacheState.init).2 1
      MeshConfig.empty).2.index_length = 8 ∧
    (get_mesh_config (cache_mesh (decoder_of many_faces_mesh) [] CacheState.init).2 1
      MeshConfig.empty).2.attributes =
      [{ dim := 1, unique_id := 5, data_type := 1, offset := 8, length := 3 }] ∧
    (decode_mesh_to_buffer (cache_mesh (decoder_of many_faces_mesh) [] CacheState.init).2 1
      filled (2 ^ 33)).2 (8 + 0) = 2 ∧
    (attribute_values many_faces_mesh.num_points
      (sample_attribute 5 .DT_UINT8 1)).getD 0 0 = 1 := by
  have hc : (cache_mesh (decoder_of many_faces_mesh) [] CacheState.init).2.g_mesh_cache 1 =
      some many_faces_mesh := rfl
  have hs : supported many_faces_mesh := Or.inr (by decide)
  have hl : layout_size many_faces_mesh = 4294967307 := by decide
  refine ⟨?_, by decide, by decide, ?_, by decide⟩
  · rw [to_buffer_eq_direct,
      direct_write_success _ [] many_faces_mesh filled (2 ^ 33) hc hs (by rw [hl]; decide)]
    exact hl
  · rw [to_buffer_eq_direct,
      direct_write_index_block _ [] many_faces_mesh filled (2 ^ 33) hc (by decide) (8 + 0)
        (by decide)]
    exact getD_index_block many_faces_mesh 0 2 0 (by decide) (by decide) (by decide)

/-- C3 (amended): for every live handle whose mesh has a layout that fits in 32 bits and
attributes of at most 4 components, and every destination for which
`decode_mesh_to_buffer` succeeds,
the bytes `[0, index_length)` hold the index block, and each entry `a` of the attribute list
`get_mesh_config` produces into an empty config belongs to an attribute `p` of the mesh with
`unique_id` `a.unique_id` and `a.dim` components such that the destination bytes
`[a.offset, a.offset + a.length)` are exactly the values of `p` for the points
`0, ..., num_points - 1` in point order, each point contributing its first `a.dim`
components of `element_size` bytes each. -/
theorem writer_matches_metadata (s : CacheState) (handle : Nat) (mesh : Mesh)
    (out_ptr : Memory) (N : Nat) (hc : s.g_mesh_cache handle = some mesh)
    (hret : (decode_mesh_to_buffer s handle out_ptr N).1 ≠ 0)
    (hfit : layout_size mesh < 2 ^ 32)
    (hdim : ∀ p ∈ mesh.attributes, p.num_components ≤ 4) :
    (∀ i, i < (get_mesh_config s handle MeshConfig.empty).2.index_length →
      (decode_mesh_to_buffer s handle out_ptr N).2 i = (index_block mesh).getD i 0) ∧
    ∀ a ∈ (get_mesh_config s handle MeshConfig.empty).2.attributes,
      ∃ p ∈ mesh.attributes, p.unique_id = a.unique_id ∧ a.dim = p.num_components ∧
        a.length = mesh.num_points * a.dim * sizeof_data_type p.data_type ∧
        ∀ i, i < a.length →
          (decode_mesh_to_buffer s handle out_ptr N).2 (a.offset + i) =
            (attribute_values mesh.num_points p).getD i 0 := by
  rw [to_buffer_eq_direct] at hret ⊢
  obtain ⟨_, _, hw⟩ := direct_write_of_ne_zero (fun _ => s.g_mesh_cache handle) []
    mesh out_ptr N hc hret
  have hi := index_bytes_le_layout_size mesh
  rw [hw, get_mesh_config_eq s handle MeshConfig.empty mesh hc]
  simp only [MeshConfig.empty, List.nil_append]
  rw [config_index_length mesh (by omega)]
  have hmem : ∀ i, i < (mesh_bytes mesh).length →
      blit out_ptr 0 (mesh_bytes mesh) i = (mesh_bytes mesh).getD i 0 := by
    intro i hi
    have := blit_inside out_ptr 0 (mesh_bytes mesh) i hi
    rwa [Nat.zero_add] at this
  have hsum := sum_attribute_order mesh.num_points mesh.attributes
  have hlay : layout_size mesh = mesh.num_faces * 3 * index_width mesh +
      ((attribute_order mesh.attributes).map (attribute_length mesh.num_points)).sum := by
    rw [hsum]
    rfl
  constructor
  · intro i hi
    rw [hmem i (by rw [length_mesh_bytes]; omega)]
    unfold mesh_bytes
    rw [List.getD_append _ _ _ _ (by rw [length_index_block]; exact hi)]
  · intro a ha
    obtain ⟨p, hp, h1, h2, h3, h4⟩ := plan_entries_segments mesh.num_points
      (blit out_ptr 0 (mesh_bytes mesh)) (attribute_order mesh.attributes)
      (mesh.num_faces * 3 * index_width mesh) (by omega)
      (fun b hb => by
        have := hdim b ((attribute_order_perm mesh.attributes).mem_iff.1 hb)
        omega)
      (by
        intro i hi
        rw [length_flatMap_attribute_bytes] at hi
        rw [hmem _ (by rw [length_mesh_bytes]; omega)]
        unfold mesh_bytes
        rw [List.getD_append_right _ _ _ _ (by rw [length_index_block]; omega),
          length_index_block]
        congr 1
        omega)
      a ha
    have hp' := (attribute_order_perm mesh.attributes).mem_iff.1 hp
    refine ⟨p, hp', h1.symm, h2, ?_, ?_⟩
    · rw [h3, h2]
      rfl
    · intro i hi
      rw [h4 i hi, attribute_bytes_eq_values mesh.num_points p (hdim p hp')]

/-- C3 (amended), at the handle `cache_mesh` returns for the triangle mesh, with 32 bytes of
capacity: the Int16 attribute of id 2 is at offset 6 and the UInt8 attribute of id 5 at
offset 12. -/
theorem writer_matches_metadata_witness :
    (get_mesh_config (cache_mesh (decoder_of triangle_mesh) [] CacheState.init).2 1
      MeshConfig.empty).2.attributes =
      [{ dim := 1, unique_id := 2, data_type := 2, offset := 6, length := 6 },
       { dim := 2, unique_id := 5, data_type := 1, offset := 12, length := 6 }] ∧
    ((∀ i, i < (get_mesh_config (cache_mesh (decoder_of triangle_mesh) [] CacheState.init).2 1
        MeshConfig.empty).2.index_length →
      (decode_mesh_to_buffer (cache_mesh (decoder_of triangle_mesh) [] CacheState.init).2 1
        filled 32).2 i = (index_block triangle_mesh).getD i 0) ∧
    ∀ a ∈ (get_mesh_config (cache_mesh (decoder_of triangle_mesh) [] CacheState.init).2 1
        MeshConfig.empty).2.attributes,
      ∃ p ∈ triangle_mesh.attributes, p.unique_id = a.unique_id ∧ a.dim = p.num_components ∧
        a.length = triangle_mesh.num_points * a.dim * sizeof_data_type p.data_type ∧
        ∀ i, i < a.length →
          (decode_mesh_to_buffer (cache_mesh (decoder_of triangle_mesh) [] CacheState.init).2 1
            filled 32).2 (a.offset + i) =
            (attribute_values triangle_mesh.num_points p).getD i 0) :=
  ⟨by decide,
    writer_matches_metadata (cache_mesh (decoder_of triangle_mesh) [] CacheState.init).2 1
      triangle_mesh filled 32 rfl (by decide) (by decide) (by decide)⟩

/-! ## C4: attribute ordering determinism -/

/-- C5 (as stated, refuted): the mesh `many_faces_mesh` has 357913942 faces, so
`3 * F = 1073741826 > 65535` and its index block has `3 * F * 4 = 4294967304` bytes, but
`get_mesh_config` reports `index_length = 8`. -/
theorem index_length_wraps_at_32_bits :
    many_faces_mesh.num_faces = 357913942 ∧
    ¬ (3 * many_faces_mesh.num_faces ≤ 65535) ∧
    3 * many_faces_mesh.num_faces * 4 = 4294967304 ∧
    (get_mesh_config (cache_mesh (decoder_of many_faces_mesh) [] CacheState.init).2 1
      MeshConfig.empty).2.index_length = 8 :=
  ⟨rfl, by decide, by decide, by decide⟩

/-- C5 (amended): for every mesh with `F` faces and `w` the width the rule gives, 2 when
`3 * F <= 65535` and 4 otherwise, such that the index block of `3 * F * w` bytes fits in
32 bits: `get_mesh_config` reports `index_count = 3 * F` and `index_length = 3 * F * w`;
`debug_mesh_buffer_len` is the `size_t` sum of `3 * F * w` and the attribute sizes as the
code multiplies them; and for every capacity of at least `3 * F * w` both writers leave,
before the first attribute, `3 * F` values of `w` bytes: the bytes `w * (3 * f + j) + b`
for `b < w` hold the low bytes of component `j` of face `f`. -/
theorem index_width_rule (size_bits : Nat) (dec : Decoder) (data : List Nat) (s : CacheState)
    (handle : Nat) (mesh : Mesh) (out_ptr : Memory) (N : Nat) (config : MeshConfig) (w : Nat)
    (hd : dec data = some mesh) (hc : s.g_mesh_cache handle = some mesh)
    (hw : w = if 3 * mesh.num_faces ≤ 65535 then 2 else 4)
    (hfit : 3 * mesh.num_faces * w < 2 ^ 32)
    (hN : 3 * mesh.num_faces * w ≤ N) :
    (get_mesh_config s handle config).2.index_count = 3 * mesh.num_faces ∧
    (get_mesh_config s handle config).2.index_length = 3 * mesh.num_faces * w ∧
    debug_mesh_buffer_len size_bits dec data =
      to_size_t size_bits (3 * mesh.num_faces * w +
        (mesh.attributes.map (fun a =>
          sizeof_data_type a.data_type * int_to_size_t size_bits (to_int mesh.num_points) *
            int_to_size_t size_bits (a.num_components : Int))).sum) ∧
    (∀ f j b, f < mesh.num_faces → j < 3 → b < w →
      (decode_mesh_direct_write dec data out_ptr N).2 (w * (3 * f + j) + b) =
        mesh.face f j / 256 ^ b % 256) ∧
    (∀ f j b, f < mesh.num_faces → j < 3 → b < w →
      (decode_mesh_to_buffer s handle out_ptr N).2 (w * (3 * f + j) + b) =
        mesh.face f j / 256 ^ b % 256) := by
  have e3 : 3 * mesh.num_faces = mesh.num_faces * 3 := Nat.mul_comm _ _
  have hw' : w = index_width mesh := by
    rw [hw, e3]
    rfl
  subst hw'
  rw [e3] at hfit hN ⊢
  have hw := two_le_index_width mesh
  have hfaces : mesh.num_faces * 3 < 2 ^ 31 := by
    have : mesh.num_faces * 3 * 2 ≤ mesh.num_faces * 3 * index_width mesh :=
      Nat.mul_le_mul_left _ hw
    omega
  have hin : ∀ f j b, f < mesh.num_faces → j < 3 → b < index_width mesh →
      index_width mesh * (3 * f + j) + b < mesh.num_faces * 3 * index_width mesh := by
    intro f j b hf hj hb
    have h1 : 3 * f + j + 1 ≤ mesh.num_faces * 3 := by omega
    have h2 := Nat.mul_le_mul_left (index_width mesh) h1
    rw [Nat.mul_comm (mesh.num_faces * 3)]
    rw [Nat.mul_succ] at h2
    omega
  refine ⟨?_, ?_, ?_, ?_, ?_⟩
  · rw [get_mesh_config_eq s handle config mesh hc]
    exact config_index_count mesh hfit
  · rw [get_mesh_config_eq s handle config mesh hc]
    exact config_index_length mesh hfit
  · exact debug_mesh_buffer_len_raw size_bits dec data mesh hd hfaces
  · intro f j b hf hj hb
    rw [direct_write_index_block dec data mesh out_ptr N hd hN _ (hin f j b hf hj hb)]
    exact getD_index_block mesh f j b hf hj hb
  · intro f j b hf hj hb
    rw [to_buffer_eq_direct,
      direct_write_index_block _ [] mesh out_ptr N hc hN _ (hin f j b hf hj hb)]
    exact getD_index_block mesh f j b hf hj hb

/-- C5 (amended), at the boundary: 21845 faces give `index_count` 65535, 131070 index bytes
and a second byte of component 2 of face 300 (value 302) at offset `2 * 902 + 1`; 21846
faces give `index_count` 65538 and 262152 index bytes. -/
theorem index_width_rule_witness :
    ((get_mesh_config (cache_mesh (decoder_of (sample_mesh 3 21845 [])) []
        CacheState.init).2 1 MeshConfig.empty).2.index_count = 65535 ∧
      (get_mesh_config (cache_mesh (decoder_of (sample_mesh 3 21845 [])) []
        CacheState.init).2 1 MeshConfig.empty).2.index_length = 131070 ∧
      debug_mesh_buffer_len 64 (decoder_of (sample_mesh 3 21845 [])) [] = 131070 ∧
      (decode_mesh_direct_write (decoder_of (sample_mesh 3 21845 [])) [] filled 131070).2
        1805 = 1) ∧
    ((get_mesh_config (cache_mesh (decoder_of (sample_mesh 3 21846 [])) []
        CacheState.init).2 1 MeshConfig.empty).2.index_count = 65538 ∧
      (get_mesh_config (cache_mesh (decoder_of (sample_mesh 3 21846 [])) []
        CacheState.init).2 1 MeshConfig.empty).2.index_length = 262152 ∧
      debug_mesh_buffer_len 64 (decoder_of (sample_mesh 3 21846 [])) [] = 262152) := by
  have h1 := index_width_rule 64 (decoder_of (sample_mesh 3 21845 [])) []
    (cache_mesh (decoder_of (sample_mesh 3 21845 [])) [] CacheState.init).2 1
    (sample_mesh 3 21845 []) filled 131070 MeshConfig.empty 2 rfl rfl (by decide) (by decide)
    (by decide)
  have h2 := index_width_rule 64 (decoder_of (sample_mesh 3 21846 [])) []
    (cache_mesh (decoder_of (sample_mesh 3 21846 [])) [] CacheState.init).2 1
    (sample_mesh 3 21846 []) filled 262152 MeshConfig.empty 4 rfl rfl (by decide) (by decide)
    (by decide)
  have b1 := h1.2.2.2.1 300 2 1 (by decide) (by decide) (by decide)
  rw [show 2 * (3 * 300 + 2) + 1 = 1805 by norm_num] at b1
  exact ⟨⟨h1.1, h1.2.1.trans (by decide), h1.2.2.1.trans (by decide),
      b1.trans (by decide)⟩,
    ⟨h2.1, h2.2.1.trans (by decide), h2.2.2.1.trans (by decide)⟩⟩

/-! ## C6: capacity failure -/

/-- C7 (as stated, refuted): the mesh `two_gib_mesh` has `2 ^ 31` points and one
1-component UInt8 attribute, so it needs `2 ^ 31` bytes; with a 64-bit `size_t` the planner
converts the `int` point count `-2 ^ 31` and predicts `R = 2 ^ 64 - 2 ^ 31`, while the direct
writer with the capacity `2 ^ 31 < R` returns `2 ^ 31`, not 0. -/
theorem write_succeeds_below_predicted_total :
    debug_mesh_buffer_len 64 (decoder_of two_gib_mesh) [] = 2 ^ 64 - 2 ^ 31 ∧
    2 ^ 31 < 2 ^ 64 - 2 ^ 31 ∧
    (decode_mesh_direct_write (decoder_of two_gib_mesh) [] filled (2 ^ 31)).1 = 2 ^ 31 :=
  ⟨by decide, by decide,
    (congrArg Prod.fst (direct_write_success (decoder_of two_gib_mesh) [] two_gib_mesh filled
      (2 ^ 31) rfl (Or.inr (by decide)) (by decide))).trans (by decide)⟩

/-- C7 (amended): for every successfully decoded mesh with required size `R`, the
planner's predicted total, if `decode_mesh_direct_write` returns a nonzero value for a
capacity `N`, then for every `N' > N` it returns the same nonzero value, and, when the
point count and the index count `3 * num_faces` are within the range of `int`, for every
`N' < R` it returns 0. -/
theorem monotonic_capacity (size_bits : Nat) (dec : Decoder) (data : List Nat) (mesh : Mesh)
    (out_ptr : Memory) (N : Nat) (hd : dec data = some mesh)
    (hret : (decode_mesh_direct_write dec data out_ptr N).1 ≠ 0) :
    (∀ (out_ptr' : Memory) (N' : Nat), N < N' →
      (decode_mesh_direct_write dec data out_ptr' N').1 ≠ 0 ∧
      (decode_mesh_direct_write dec data out_ptr' N').1 =
        (decode_mesh_direct_write dec data out_ptr N).1) ∧
    (mesh.num_points < 2 ^ 31 → mesh.num_faces * 3 < 2 ^ 31 →
      ∀ (out_ptr' : Memory) (N' : Nat), N' < debug_mesh_buffer_len size_bits dec data →
        (decode_mesh_direct_write dec data out_ptr' N').1 = 0) := by
  obtain ⟨hs, hle, hw⟩ := direct_write_of_ne_zero dec data mesh out_ptr N hd hret
  constructor
  · intro out_ptr' N' hlt
    have e := direct_write_success dec data mesh out_ptr' N' hd hs (by omega)
    rw [hw] at hret ⊢
    rw [e]
    exact ⟨hret, rfl⟩
  · intro hpoints hfaces out_ptr' N' hlt
    rw [debug_mesh_buffer_len_eq size_bits dec data mesh hd hfaces hpoints] at hlt
    have := Nat.mod_le (layout_size mesh) (2 ^ size_bits)
    unfold to_size_t at hlt
    exact direct_write_failure dec data mesh out_ptr' N' hd (fun h => by omega)

/-- C7 (amended), at the triangle mesh: the write succeeds with 18 bytes of capacity, so it
returns the same 18 with 32 bytes and 0 with 17 bytes. -/
theorem monotonic_capacity_witness :
    (decode_mesh_direct_write (decoder_of triangle_mesh) [] filled 18).1 = 18 ∧
      (decode_mesh_direct_write (decoder_of triangle_mesh) [] filled 32).1 =
        (decode_mesh_direct_write (decoder_of triangle_mesh) [] filled 18).1 ∧
      (decode_mesh_direct_write (decoder_of triangle_mesh) [] filled 17).1 = 0 :=
  ⟨by decide,
    ((monotonic_capacity 64 (decoder_of triangle_mesh) [] triangle_mesh filled 18 rfl
      (by decide)).1 filled 32 (by decide)).2,
    (monotonic_capacity 64 (decoder_of triangle_mesh) [] triangle_mesh filled 18 rfl
      (by decide)).2 (by decide) (by decide) filled 17 (by decide)⟩

/-! ## The handle cache as a state machine -/

theorem run_calls_cons (dec : Decoder) (s : CacheState) (call : CacheCall)
    (calls : List CacheCall) :
    run_calls dec s (call :: calls) = run_calls dec (call.apply dec s) calls := rfl

/-- While the counter does not wrap, a run never moves the counter back, moves it by at
most one per call, keeps every key between 1 and the counter, and returns only 0 or
handles between the old and the new counter. -/
theorem run_calls_invariant (dec : Decoder) (calls : List CacheCall) (s : CacheState)
    (h1 : 1 ≤ s.g_next_handle)
    (hkeys : ∀ k, s.g_mesh_cache k ≠ none → 1 ≤ k ∧ k < s.g_next_handle)
    (hbound : s.g_next_handle + calls.length < 2 ^ 64) :
    s.g_next_handle ≤ (run_calls dec s calls).g_next_handle ∧
    (run_calls dec s calls).g_next_handle ≤ s.g_next_handle + calls.length ∧
    (∀ k, (run_calls dec s calls).g_mesh_cache k ≠ none →
      1 ≤ k ∧ k < (run_calls dec s calls).g_next_handle) ∧
    (∀ h ∈ returned_handles dec s calls,
      h = 0 ∨ (s.g_next_handle ≤ h ∧ h < (run_calls dec s calls).g_next_handle)) := by
  induction calls generalizing s with
  | nil =>
    refine ⟨Nat.le_refl _, Nat.le_add_right _ _, hkeys, ?_⟩
    intro h hh
    simp [returned_handles] at hh
  | cons call calls ih =>
    rw [List.length_cons] at hbound
    rw [run_calls_cons]
    cases call with
    | release handle =>
      have hk : ∀ k, (release_mesh_cache handle s).g_mesh_cache k ≠ none →
          1 ≤ k ∧ k < (release_mesh_cache handle s).g_next_handle := by
        intro k hk
        apply hkeys k
        intro hn
        apply hk
        simp only [release_mesh_cache]
        split
        · rfl
        · exact hn
      obtain ⟨a, b, c, d⟩ := ih (release_mesh_cache handle s) h1 hk
        (by show s.g_next_handle + calls.length < 2 ^ 64; omega)
      refine ⟨a, ?_, c, ?_⟩
      · have e : (release_mesh_cache handle s).g_next_handle = s.g_next_handle := rfl
        rw [e] at b
        simp only [CacheCall.apply, List.length_cons]
        omega
      · intro h hh
        exact d h hh
    | cache data =>
      cases hd : dec data with
      | none =>
        have e : (cache_mesh dec data s) = (0, s) := by
          simp [cache_mesh, hd]
        obtain ⟨a, b, c, d⟩ := ih s h1 hkeys (by omega)
        simp only [CacheCall.apply, e, List.length_cons]
        refine ⟨a, by omega, c, ?_⟩
        intro h hh
        simp only [returned_handles, e, List.mem_cons] at hh
        rcases hh with hh | hh
        · exact Or.inl hh
        · exact d h hh
      | some mesh =>
        have e : (cache_mesh dec data s) = (s.g_next_handle,
            { g_next_handle := s.g_next_handle + 1,
              g_mesh_cache := fun k =>
                if k = s.g_next_handle then some mesh else s.g_mesh_cache k }) := by
          simp only [cache_mesh, hd, u64]
          rw [Nat.mod_eq_of_lt (by omega)]
        have hk : ∀ k, (if k = s.g_next_handle then some mesh else s.g_mesh_cache k) ≠ none →
            1 ≤ k ∧ k < s.g_next_handle + 1 := by
          intro k hk
          by_cases hks : k = s.g_next_handle
          · omega
          · rw [if_neg hks] at hk
            have := hkeys k hk
            omega
        obtain ⟨a, b, c, d⟩ := ih
          { g_next_handle := s.g_next_handle + 1,
            g_mesh_cache := fun k =>
              if k = s.g_next_handle then some mesh else s.g_mesh_cache k }
          (by show 1 ≤ s.g_next_handle + 1; omega) hk
          (by show s.g_next_handle + 1 + calls.length < 2 ^ 64; omega)
        simp only [CacheCall.apply, e, List.length_cons]
        simp only [] at a b d
        refine ⟨by omega, by omega, c, ?_⟩
        intro h hh
        simp only [returned_handles, e, List.mem_cons] at hh
        rcases hh with hh | hh
        · right
          omega
        · rcases d h hh with hz | hz
          · exact Or.inl hz
          · right
            omega

theorem init_invariant :
    1 ≤ CacheState.init.g_next_handle ∧
      ∀ k, CacheState.init.g_mesh_cache k ≠ none → 1 ≤ k ∧ k < CacheState.init.g_next_handle := by
  refine ⟨Nat.le_refl _, ?_⟩
  intro k hk
  exact absurd rfl hk

/-- While the counter does not wrap, a handle below the counter that is absent stays
absent. -/
theorem absent_stays_absent (dec : Decoder) (calls : List CacheCall) (s : CacheState)
    (h : Nat) (habs : s.g_mesh_cache h = none) (hlt : h < s.g_next_handle)
    (hbound : s.g_next_handle + calls.length < 2 ^ 64) :
    (run_calls dec s calls).g_mesh_cache h = none := by
  induction calls generalizing s with
  | nil => exact habs
  | cons call calls ih =>
    rw [List.length_cons] at hbound
    rw [run_calls_cons]
    cases call with
    | release handle =>
      apply ih
      · simp only [CacheCall.apply, release_mesh_cache]
        split
        · rfl
        · exact habs
      · exact hlt
      · show s.g_next_handle + calls.length < 2 ^ 64
        omega
    | cache data =>
      cases hd : dec data with
      | none =>
        have e : (cache_mesh dec data s) = (0, s) := by
          simp [cache_mesh, hd]
        simp only [CacheCall.apply, e]
        exact ih s habs hlt (by omega)
      | some mesh =>
        have e : (cache_mesh dec data s) = (s.g_next_handle,
            { g_next_handle := s.g_next_handle + 1,
              g_mesh_cache := fun k =>
                if k = s.g_next_handle then some mesh else s.g_mesh_cache k }) := by
          simp only [cache_mesh, hd, u64]
          rw [Nat.mod_eq_of_lt (by omega)]
        simp only [CacheCall.apply, e]
        apply ih
        · show (if h = s.g_next_handle then some mesh else s.g_mesh_cache h) = none
          rw [if_neg (by omega)]
          exact habs
        · show h < s.g_next_handle + 1
          omega
        · show s.g_next_handle + 1 + calls.length < 2 ^ 64
          omega

theorem get_mesh_config_absent (s : CacheState) (h : Nat) (config : MeshConfig)
    (habs : s.g_mesh_cache h = none) : (get_mesh_config s h config).1 = false := by
  simp [get_mesh_config, habs]

theorem decode_mesh_to_buffer_absent (s : CacheState) (h : Nat) (out_ptr : Memory) (N : Nat)
    (habs : s.g_mesh_cache h = none) : (decode_mesh_to_buffer s h out_ptr N).1 = 0 := by
  simp [decode_mesh_to_buffer, habs]

theorem release_absent (s : CacheState) (h : Nat) :
    (release_mesh_cache h s).g_mesh_cache h = none := by
  simp [release_mesh_cache]

/-! ## C8: post-release invalidity -/

/-- C8 (as stated, refuted): in the initial state handle 1 is released (a no-op), then one
`cache_mesh` call follows; after it `get_mesh_config` on handle 1 returns true and
`decode_mesh_to_buffer` on handle 1 returns 18. -/
theorem released_unissued_handle_resolves_later :
    (get_mesh_config
      (run_calls (decoder_of triangle_mesh) (release_mesh_cache 1 CacheState.init)
        [CacheCall.cache []]) 1 MeshConfig.empty).1 = true ∧
    (decode_mesh_to_buffer
      (run_calls (decoder_of triangle_mesh) (release_mesh_cache 1 CacheState.init)
        [CacheCall.cache []]) 1 filled 32).1 = 18 :=
  ⟨by decide, by decide⟩

/-- C8 (amended): right after `release_mesh_cache(h')`, for every state and every handle
`h'`, `get_mesh_config` returns false and `decode_mesh_to_buffer` returns 0; and for every
state reached by a run from the initial state and every handle `h` below the next-handle
counter (0 or a handle issued earlier), this stays true after any further sequence of
`cache_mesh` and `release_mesh_cache` calls, as long as the run has fewer than `2^64 - 1`
calls (the 64-bit counter has not wrapped). -/
theorem post_release_invalidity (dec : Decoder) (before after : List CacheCall) (h : Nat)
    (config : MeshConfig) (out_ptr : Memory) (N : Nat)
    (hissued : h < (run_calls dec CacheState.init before).g_next_handle)
    (hbound : before.length + after.length + 1 < 2 ^ 64) :
    (∀ (s : CacheState) (h' : Nat),
      (get_mesh_config (release_mesh_cache h' s) h' config).1 = false ∧
      (decode_mesh_to_buffer (release_mesh_cache h' s) h' out_ptr N).1 = 0) ∧
    (get_mesh_config
      (run_calls dec (release_mesh_cache h (run_calls dec CacheState.init before)) after)
      h config).1 = false ∧
    (decode_mesh_to_buffer
      (run_calls dec (release_mesh_cache h (run_calls dec CacheState.init before)) after)
      h out_ptr N).1 = 0 := by
  obtain ⟨_, hb, _, _⟩ := run_calls_invariant dec before CacheState.init init_invariant.1
    init_invariant.2 (by show 1 + before.length < 2 ^ 64; omega)
  have h1 : CacheState.init.g_next_handle = 1 := rfl
  rw [h1] at hb
  have habs := absent_stays_absent dec after
    (release_mesh_cache h (run_calls dec CacheState.init before)) h (release_absent _ h)
    hissued
    (by show (run_calls dec CacheState.init before).g_next_handle + after.length < 2 ^ 64
        omega)
  exact ⟨fun s h' => ⟨get_mesh_config_absent _ h' config (release_absent s h'),
      decode_mesh_to_buffer_absent _ h' out_ptr N (release_absent s h')⟩,
    get_mesh_config_absent _ h config habs, decode_mesh_to_buffer_absent _ h out_ptr N habs⟩

/-- C8 (amended), at the run that caches the triangle mesh (handle 1), releases handle 1
and caches the mesh again: handle 1 stays absent. -/
theorem post_release_invalidity_witness :
    (cache_mesh (decoder_of triangle_mesh) [] CacheState.init).1 = 1 ∧
    (get_mesh_config
      (run_calls (decoder_of triangle_mesh)
        (release_mesh_cache 1
          (run_calls (decoder_of triangle_mesh) CacheState.init [CacheCall.cache []]))
        [CacheCall.cache []]) 1 MeshConfig.empty).1 = false :=
  ⟨by decide,
    (post_release_invalidity (decoder_of triangle_mesh) [CacheCall.cache []]
      [CacheCall.cache []] 1 MeshConfig.empty filled 32 (by decide) (by decide)).2.1⟩

/-! ## C9: handle issuance -/

/-- C9: in every sequential run from the initial cache state with fewer than `2^64 - 1`
calls (the 64-bit counter has not wrapped), a `cache_mesh` call whose decode succeeds returns
a nonzero handle different from every value returned earlier in the run, whether or not
those handles were released; `cache_mesh` returns 0 only on decode failure; and handle 0 is
not a key of the cache. -/
theorem handle_issuance (dec : Decoder) (calls : List CacheCall) (data : List Nat)
    (hbound : calls.length + 1 < 2 ^ 64) :
    (dec data ≠ none →
      (cache_mesh dec data (run_calls dec CacheState.init calls)).1 ≠ 0 ∧
      (cache_mesh dec data (run_calls dec CacheState.init calls)).1 ∉
        returned_handles dec CacheState.init calls) ∧
    ((cache_mesh dec data (run_calls dec CacheState.init calls)).1 = 0 → dec data = none) ∧
    (run_calls dec CacheState.init calls).g_mesh_cache 0 = none := by
  obtain ⟨ha, _, hk, hr⟩ := run_calls_invariant dec calls CacheState.init init_invariant.1
    init_invariant.2 (by show 1 + calls.length < 2 ^ 64; omega)
  have h1 : CacheState.init.g_next_handle = 1 := rfl
  rw [h1] at ha hr
  have hsome : ∀ mesh, dec data = some mesh →
      (cache_mesh dec data (run_calls dec CacheState.init calls)).1 =
        (run_calls dec CacheState.init calls).g_next_handle := by
    intro mesh hd
    simp [cache_mesh, hd]
  refine ⟨?_, ?_, ?_⟩
  · intro hne
    cases hd : dec data with
    | none => exact absurd hd hne
    | some mesh =>
      rw [hsome mesh hd]
      refine ⟨by omega, ?_⟩
      intro hmem
      rcases hr _ hmem with hz | hz
      · omega
      · omega
  · intro hz
    cases hd : dec data with
    | none => rfl
    | some mesh =>
      rw [hsome mesh hd] at hz
      omega
  · by_contra hne
    have := hk 0 hne
    omega

/-- C9, at the run that caches the triangle mesh, releases its handle 1 and caches the
mesh again: the values returned so far are 1 and 2, and the next call returns 3. -/
theorem handle_issuance_witness :
    returned_handles (decoder_of triangle_mesh) CacheState.init
      [CacheCall.cache [], CacheCall.release 1, CacheCall.cache []] = [1, 2] ∧
    (cache_mesh (decoder_of triangle_mesh) []
      (run_calls (decoder_of triangle_mesh) CacheState.init
        [CacheCall.cache [], CacheCall.release 1, CacheCall.cache []])).1 = 3 ∧
    (cache_mesh (decoder_of triangle_mesh) []
      (run_calls (decoder_of triangle_mesh) CacheState.init
        [CacheCall.cache [], CacheCall.release 1, CacheCall.cache []])).1 ∉
      returned_handles (decoder_of triangle_mesh) CacheState.init
        [CacheCall.cache [], CacheCall.release 1, CacheCall.cache []] :=
  ⟨by decide, by decide,
    ((handle_issuance (decoder_of triangle_mesh)
      [CacheCall.cache [], CacheCall.release 1, CacheCall.cache []] [] (by decide)).1
      (by simp [decoder_of])).2⟩

/-! ## C10: metadata idempotence -/

/-- C10 (as stated, refuted): for the live handle 1 of the triangle mesh, a first
`get_mesh_config` into an empty config yields 2 attribute entries, and a second call into
the config the first call produced yields 4. -/
theorem repeated_query_into_same_config_differs :
    (get_mesh_config (cache_mesh (decoder_of triangle_mesh) [] CacheState.init).2 1
      MeshConfig.empty).2.attributes.length = 2 ∧
    (get_mesh_config (cache_mesh (decoder_of triangle_mesh) [] CacheState.init).2 1
      (get_mesh_config (cache_mesh (decoder_of triangle_mesh) [] CacheState.init).2 1
        MeshConfig.empty).2).2.attributes.length = 4 :=
  ⟨by decide, by decide⟩

/-- C10 (amended): for every live handle, every `get_mesh_config` call returns true with
the same `vertex_count`, `index_count` and `index_length` whatever the config held before
the call; the attribute list after the call is the list the config held before the call
followed by the entries of the mesh, so calls into configs that hold the same attribute
list (an empty one in particular) give identical results. -/
theorem metadata_idempotence (s : CacheState) (handle : Nat) (mesh : Mesh)
    (config config' : MeshConfig) (hc : s.g_mesh_cache handle = some mesh) :
    (get_mesh_config s handle config).1 = true ∧
    (get_mesh_config s handle config).1 = (get_mesh_config s handle config').1 ∧
    (get_mesh_config s handle config).2.vertex_count =
      (get_mesh_config s handle config').2.vertex_count ∧
    (get_mesh_config s handle config).2.index_count =
      (get_mesh_config s handle config').2.index_count ∧
    (get_mesh_config s handle config).2.index_length =
      (get_mesh_config s handle config').2.index_length ∧
    (get_mesh_config s handle config).2.attributes =
      config.attributes ++ (get_mesh_config s handle MeshConfig.empty).2.attributes ∧
    (config.attributes = config'.attributes →
      get_mesh_config s handle config = get_mesh_config s handle config') := by
  rw [get_mesh_config_eq s handle config mesh hc, get_mesh_config_eq s handle config' mesh hc,
    get_mesh_config_eq s handle MeshConfig.empty mesh hc]
  refine ⟨rfl, rfl, rfl, rfl, rfl, rfl, ?_⟩
  intro h
  rw [h]

/-- C10 (amended), at the live handle 1 of the triangle mesh: two calls into empty configs
give the same result. -/
theorem metadata_idempotence_witness :
    (get_mesh_config (cache_mesh (decoder_of triangle_mesh) [] CacheState.init).2 1
      MeshConfig.empty).1 = true ∧
    get_mesh_config (cache_mesh (decoder_of triangle_mesh) [] CacheState.init).2 1
      MeshConfig.empty =
    get_mesh_config (cache_mesh (decoder_of triangle_mesh) [] CacheState.init).2 1
      { vertex_count := 7, index_count := 7, index_length := 7, attributes := [] } :=
  ⟨(metadata_idempotence (cache_mesh (decoder_of triangle_mesh) [] CacheState.init).2 1
      triangle_mesh MeshConfig.empty
      { vertex_count := 7, index_count := 7, index_length := 7, attributes := [] } rfl).1,
    (metadata_idempotence (cache_mesh (decoder_of triangle_mesh) [] CacheState.init).2 1
      triangle_mesh MeshConfig.empty
      { vertex_count := 7, index_count := 7, index_length := 7, attributes := [] } rfl).2.2.2.2.2.2
      rfl⟩

/-! ## The metadata entries one by one -/

/-- Every entry of the plan belongs to one of the attributes and carries its id, type code
and 32-bit length. -/
theorem plan_entries_sound (vertex_count off : Nat) (attrs : List PointAttribute) :
    ∀ e ∈ plan_entries vertex_count off attrs, ∃ p ∈ attrs,
      e.unique_id = p.unique_id ∧ e.dim = u32 p.num_components ∧
      e.data_type = get_mesh_config.type_code p.data_type ∧
      e.length = u32 (u32 p.num_components * vertex_count * sizeof_data_type p.data_type) := by
  induction attrs generalizing off with
  | nil =>
    intro e he
    simp [plan_entries] at he
  | cons a attrs ih =>
    intro e he
    simp only [plan_entries, List.mem_cons] at he
    rcases he with he | he
    · exact ⟨a, List.mem_cons_self a attrs, by rw [he], by rw [he], by rw [he], by rw [he]⟩
    · obtain ⟨p, hp, h⟩ := ih _ e he
      exact ⟨p, List.mem_cons_of_mem a hp, h⟩

/-- Every attribute has an entry in the plan that carries its id, type code and 32-bit
length. -/
theorem plan_entries_complete (vertex_count off : Nat) (attrs : List PointAttribute) :
    ∀ p ∈ attrs, ∃ e ∈ plan_entries vertex_count off attrs,
      e.unique_id = p.unique_id ∧ e.dim = u32 p.num_components ∧
      e.data_type = get_mesh_config.type_code p.data_type ∧
      e.length = u32 (u32 p.num_components * vertex_count * sizeof_data_type p.data_type) := by
  induction attrs generalizing off with
  | nil =>
    intro p hp
    simp at hp
  | cons a attrs ih =>
    intro p hp
    rcases List.mem_cons.1 hp with hp | hp
    · subst hp
      simp only [plan_entries]
      exact ⟨_, List.mem_cons_self _ _, rfl, rfl, rfl, rfl⟩
    · obtain ⟨e, he, h⟩ := ih (u32 (off + u32 (u32 a.num_components * vertex_count *
        sizeof_data_type a.data_type))) p hp
      refine ⟨e, ?_, h⟩
      simp only [plan_entries]
      exact List.mem_cons_of_mem _ he

/-- The attribute list `get_mesh_config` produces into an empty config for a present
handle. -/
theorem get_mesh_config_attributes (s : CacheState) (handle : Nat) (mesh : Mesh)
    (hc : s.g_mesh_cache handle = some mesh) :
    (get_mesh_config s handle MeshConfig.empty).2.attributes =
      plan_entries (u32 mesh.num_points)
        (if u32 (mesh.num_faces * 3) ≤ 65535 then u32 (u32 (mesh.num_faces * 3) * 2)
          else u32 (u32 (mesh.num_faces * 3) * 4))
        (attribute_order mesh.attributes) := by
  rw [get_mesh_config_eq s handle MeshConfig.empty mesh hc]
  simp [MeshConfig.empty]

/-! ## C11: type-code reporting -/

/-- C11 (as stated, refuted): the mesh `huge_float64_mesh` has `2 ^ 30` points and one
1-component Float64 attribute, so `point_count * dimensionality * 8 = 2 ^ 33`, but
`get_mesh_config` reports the attribute with length 0. -/
theorem float64_length_wraps_at_32_bits :
    huge_float64_mesh.num_points * 1 * sizeof_data_type .DT_FLOAT64 = 2 ^ 33 ∧
    (get_mesh_config (cache_mesh (decoder_of huge_float64_mesh) [] CacheState.init).2 1
      MeshConfig.empty).2.attributes =
      [{ dim := 1, unique_id := 7, data_type := 1, offset := 0, length := 0 }] :=
  ⟨by decide, by decide⟩

/-- C11 (amended): for every attribute `p` of a cached mesh, `get_mesh_config` reports an
entry with the id of `p` whose type code is 0 for Int8, 1 for UInt8, 2 for Int16, 3 for
UInt16, 4 for Int32, 5 for UInt32 and 6 for Float32, and 1 for every other element type
(Float64 in particular), while its length is `num_points * num_components * element_size`
reduced modulo `2 ^ 32`, hence that product itself whenever it is below `2 ^ 32`, 8 bytes
per scalar for Float64. -/
theorem type_code_reporting (s : CacheState) (handle : Nat) (mesh : Mesh)
    (p : PointAttribute) (hc : s.g_mesh_cache handle = some mesh)
    (hp : p ∈ mesh.attributes) :
    ∃ a ∈ (get_mesh_config s handle MeshConfig.empty).2.attributes,
      a.unique_id = p.unique_id ∧
      (p.data_type = .DT_INT8 → a.data_type = 0) ∧
      (p.data_type = .DT_UINT8 → a.data_type = 1) ∧
      (p.data_type = .DT_INT16 → a.data_type = 2) ∧
      (p.data_type = .DT_UINT16 → a.data_type = 3) ∧
      (p.data_type = .DT_INT32 → a.data_type = 4) ∧
      (p.data_type = .DT_UINT32 → a.data_type = 5) ∧
      (p.data_type = .DT_FLOAT32 → a.data_type = 6) ∧
      (p.data_type = .DT_FLOAT64 → a.data_type = 1) ∧
      (p.data_type ≠ .DT_INT8 → p.data_type ≠ .DT_UINT8 → p.data_type ≠ .DT_INT16 →
        p.data_type ≠ .DT_UINT16 → p.data_type ≠ .DT_INT32 → p.data_type ≠ .DT_UINT32 →
        p.data_type ≠ .DT_FLOAT32 → a.data_type = 1) ∧
      a.length =
        (mesh.num_points * p.num_components * sizeof_data_type p.data_type) % 2 ^ 32 ∧
      (mesh.num_points * p.num_components * sizeof_data_type p.data_type < 2 ^ 32 →
        a.length = mesh.num_points * p.num_components * sizeof_data_type p.data_type ∧
        (p.data_type = .DT_FLOAT64 →
          a.length = mesh.num_points * p.num_components * 8)) := by
  rw [get_mesh_config_attributes s handle mesh hc]
  obtain ⟨a, ha, h1, _, h3, h4⟩ := plan_entries_complete (u32 mesh.num_points) _
    (attribute_order mesh.attributes) p ((attribute_order_perm mesh.attributes).mem_iff.2 hp)
  have hmod : a.length =
      (mesh.num_points * p.num_components * sizeof_data_type p.data_type) % 2 ^ 32 := by
    rw [h4, u32_mul3, Nat.mul_comm p.num_components mesh.num_points]
    rfl
  have hlen : mesh.num_points * p.num_components * sizeof_data_type p.data_type < 2 ^ 32 →
      a.length = mesh.num_points * p.num_components * sizeof_data_type p.data_type := by
    intro hfit
    rw [hmod]
    exact Nat.mod_eq_of_lt hfit
  refine ⟨a, ha, h1, ?_, ?_, ?_, ?_, ?_, ?_, ?_, ?_, ?_, hmod, ?_⟩
  · intro h
    rw [h3, h]
    rfl
  · intro h
    rw [h3, h]
    rfl
  · intro h
    rw [h3, h]
    rfl
  · intro h
    rw [h3, h]
    rfl
  · intro h
    rw [h3, h]
    rfl
  · intro h
    rw [h3, h]
    rfl
  · intro h
    rw [h3, h]
    rfl
  · intro h
    rw [h3, h]
    rfl
  · intro n1 n2 n3 n4 n5 n6 n7
    rw [h3]
    cases hT : p.data_type <;> simp_all [get_mesh_config.type_code]
  · intro hfit
    refine ⟨hlen hfit, ?_⟩
    intro h
    rw [hlen hfit, h]
    rfl

/-- C11 (amended), at the live handle 1 of the mesh with one 3-component Float64 attribute
over two points: the entry has type code 1 and length 2 * 3 * 8 = 48. -/
theorem type_code_reporting_witness :
    ∃ a ∈ (get_mesh_config (cache_mesh (decoder_of float64_mesh) [] CacheState.init).2 1
        MeshConfig.empty).2.attributes,
      a.unique_id = 7 ∧ a.data_type = 1 ∧ a.length = 48 := by
  obtain ⟨a, ha, h1, _, _, _, _, _, _, _, h64, _, _, hlen⟩ :=
    type_code_reporting (cache_mesh (decoder_of float64_mesh) [] CacheState.init).2 1
      float64_mesh (sample_attribute 7 .DT_FLOAT64 3) rfl (List.mem_singleton.2 rfl)
  exact ⟨a, ha, h1, h64 rfl, ((hlen (by decide)).2 rfl).trans (by decide)⟩

/-! ## C12: layout offset invariant -/

theorem take_plan_lengths (num_points off : Nat) (attrs : List PointAttribute)
    (h : ∀ a ∈ attrs, attribute_length num_points a < 2 ^ 32) (k : Nat) :
    sum_lengths ((plan_entries (u32 num_points) off attrs).take k) =
      ((attrs.take k).map (attribute_length num_points)).sum := by
  unfold sum_lengths
  rw [List.map_take, plan_entries_lengths num_points off attrs h, List.map_take]

/-- When nothing wraps, the entry at position `k` of the plan starts where the `k` earlier
segments end. -/
theorem plan_entries_offset (num_points : Nat) (attrs : List PointAttribute) (off : Nat)
    (hfit : off + (attrs.map (attribute_length num_points)).sum < 2 ^ 32) (k : Nat)
    (e : MeshAttribute) (he : (plan_entries (u32 num_points) off attrs)[k]? = some e) :
    e.offset = off + ((attrs.take k).map (attribute_length num_points)).sum := by
  induction attrs generalizing off k with
  | nil => simp [plan_entries] at he
  | cons a attrs ih =>
    rw [List.map_cons, List.sum_cons] at hfit
    have hlen : u32 (u32 a.num_components * u32 num_points * sizeof_data_type a.data_type) =
        attribute_length num_points a := entry_length num_points a (by omega)
    have hoff : u32 (off + attribute_length num_points a) =
        off + attribute_length num_points a := Nat.mod_eq_of_lt (by omega)
    cases k with
    | zero =>
      simp only [plan_entries, List.getElem?_cons_zero, Option.some.injEq] at he
      rw [← he]
      simp
    | succ k =>
      simp only [plan_entries, List.getElem?_cons_succ] at he
      rw [hlen, hoff] at he
      rw [ih (off + attribute_length num_points a) (by omega) k he, List.take_succ_cons,
        List.map_cons, List.sum_cons, Nat.add_assoc]

/-- C12 (as stated, refuted): the mesh `huge_mesh` has `2 ^ 30` points, a 1-component
Float32 attribute (id 1) and a 1-component UInt8 attribute (id 2). `get_mesh_config` reports
the first with length 0 instead of `2 ^ 30 * 1 * 4 = 2 ^ 32`, and both at offset 0 although
the second has length `2 ^ 30`. -/
theorem segment_length_wraps_at_32_bits :
    huge_mesh.num_points * 1 * sizeof_data_type .DT_FLOAT32 = 2 ^ 32 ∧
    (get_mesh_config (cache_mesh (decoder_of huge_mesh) [] CacheState.init).2 1
      MeshConfig.empty).2.index_length = 0 ∧
    (get_mesh_config (cache_mesh (decoder_of huge_mesh) [] CacheState.init).2 1
      MeshConfig.empty).2.attributes =
      [{ dim := 1, unique_id := 1, data_type := 6, offset := 0, length := 0 },
       { dim := 1, unique_id := 2, data_type := 1, offset := 0, length := 2 ^ 30 }] :=
  ⟨by decide, by decide, by decide⟩

/-- C12 (amended): for every cached mesh whose layout fits in 32 bits, in the attribute list
`get_mesh_config` produces into an empty config each entry's length equals
`num_points * num_components * element_size` of its attribute, the first entry's offset
equals `index_length`, every later entry's offset equals the previous entry's offset plus
the previous entry's length, and the offset of the entry at position `k` is `index_length`
plus the sum of the lengths of the `k` earlier entries. -/
theorem layout_offset_invariant (s : CacheState) (handle : Nat) (mesh : Mesh)
    (config : MeshConfig) (hc : s.g_mesh_cache handle = some mesh)
    (hq : get_mesh_config s handle MeshConfig.empty = (true, config))
    (hfit : layout_size mesh < 2 ^ 32) :
    (∀ a ∈ config.attributes, ∃ p ∈ mesh.attributes, a.unique_id = p.unique_id ∧
      a.length = mesh.num_points * p.num_components * sizeof_data_type p.data_type) ∧
    (∀ a, config.attributes[0]? = some a → a.offset = config.index_length) ∧
    (∀ k a b, config.attributes[k]? = some a → config.attributes[k + 1]? = some b →
      b.offset = a.offset + a.length) ∧
    (∀ k a, config.attributes[k]? = some a →
      a.offset = config.index_length + sum_lengths (config.attributes.take k)) := by
  have hi := index_bytes_le_layout_size mesh
  have hsum := sum_attribute_order mesh.num_points mesh.attributes
  have hlay : layout_size mesh = mesh.num_faces * 3 * index_width mesh +
      ((attribute_order mesh.attributes).map (attribute_length mesh.num_points)).sum := by
    rw [hsum]
    rfl
  have hlt : ∀ a ∈ attribute_order mesh.attributes,
      attribute_length mesh.num_points a < 2 ^ 32 := by
    intro a ha
    have := attribute_length_le_layout_size mesh a
      ((attribute_order_perm mesh.attributes).mem_iff.1 ha)
    omega
  have hcfg : config = (get_mesh_config s handle MeshConfig.empty).2 := by rw [hq]
  have hattrs := get_mesh_config_attributes s handle mesh hc
  rw [config_index_length mesh (by omega)] at hattrs
  have hidx : config.index_length = mesh.num_faces * 3 * index_width mesh := by
    rw [hcfg, get_mesh_config_eq s handle MeshConfig.empty mesh hc]
    exact config_index_length mesh (by omega)
  rw [← hcfg] at hattrs
  have hoffset : ∀ k a, config.attributes[k]? = some a →
      a.offset = config.index_length + sum_lengths (config.attributes.take k) := by
    intro k a hk
    rw [hattrs] at hk ⊢
    rw [plan_entries_offset mesh.num_points (attribute_order mesh.attributes) _ (by omega)
      k a hk, take_plan_lengths mesh.num_points _ _ hlt k, hidx]
  refine ⟨?_, ?_, ?_, hoffset⟩
  · intro a ha
    rw [hattrs] at ha
    obtain ⟨p, hp, h1, _, _, h4⟩ := plan_entries_sound _ _ _ a ha
    refine ⟨p, (attribute_order_perm mesh.attributes).mem_iff.1 hp, h1, ?_⟩
    rw [h4]
    exact entry_length mesh.num_points p (hlt p hp)
  · intro a ha
    have := hoffset 0 a ha
    simpa [sum_lengths] using this
  · intro k a b hka hkb
    rw [hoffset k a hka, hoffset (k + 1) b hkb, List.take_succ, hka]
    simp only [sum_lengths, Option.toList, List.map_append, List.sum_append, List.map_cons,
      List.map_nil, List.sum_cons, List.sum_nil]
    omega

/-- C12 (amended), at the live handle 1 of the triangle mesh: the entries are at offsets 6 and 12
with lengths 6 and 6. -/
theorem layout_offset_invariant_witness :
    (get_mesh_config (cache_mesh (decoder_of triangle_mesh) [] CacheState.init).2 1
      MeshConfig.empty).2.attributes.map (fun a => (a.offset, a.length)) = [(6, 6), (12, 6)] ∧
    ∀ k a b,
      (get_mesh_config (cache_mesh (decoder_of triangle_mesh) [] CacheState.init).2 1
        MeshConfig.empty).2.attributes[k]? = some a →
      (get_mesh_config (cache_mesh (decoder_of triangle_mesh) [] CacheState.init).2 1
        MeshConfig.empty).2.attributes[k + 1]? = some b →
      b.offset = a.offset + a.length :=
  ⟨by decide,
    (layout_offset_invariant (cache_mesh (decoder_of triangle_mesh) [] CacheState.init).2 1
      triangle_mesh
      (get_mesh_config (cache_mesh (decoder_of triangle_mesh) [] CacheState.init).2 1
        MeshConfig.empty).2 rfl rfl (by decide)).2.2.1⟩

/-! ## C13: index block content -/

/-- C13 (the code at the failing input): in `wide_index_mesh` every face component is a
valid point index and component 0 of face 0 is 65536; the mesh has 3 indices, so both
writers use 2-byte indices, succeed with 6 bytes of capacity, and the 2-byte value at
position 0 of the index block is 0, not 65536. -/
theorem index_truncated_to_16_bits :
    (∀ j, j < 3 → wide_index_mesh.face 0 j < wide_index_mesh.num_points) ∧
    wide_index_mesh.face 0 0 = 65536 ∧
    (decode_mesh_direct_write (decoder_of wide_index_mesh) [] filled 6).1 = 6 ∧
    (decode_mesh_direct_write (decoder_of wide_index_mesh) [] filled 6).2 0 +
      256 * (decode_mesh_direct_write (decoder_of wide_index_mesh) [] filled 6).2 1 = 0 ∧
    (decode_mesh_to_buffer (cache_mesh (decoder_of wide_index_mesh) [] CacheState.init).2 1
      filled 6).1 = 6 ∧
    (decode_mesh_to_buffer (cache_mesh (decoder_of wide_index_mesh) [] CacheState.init).2 1
      filled 6).2 0 +
      256 * (decode_mesh_to_buffer (cache_mesh (decoder_of wide_index_mesh) []
        CacheState.init).2 1 filled 6).2 1 = 0 :=
  ⟨by decide, rfl, by decide, by decide, by decide, by decide⟩

/-! ## C14: unsupported element types -/

theorem layout_size_of_no_points (mesh : Mesh) (hp : mesh.num_points = 0)
    (hf : mesh.num_faces = 0) : layout_size mesh = 0 := by
  have hz : ∀ x ∈ mesh.attributes.map (attribute_length 0), x = 0 := by
    intro x hx
    obtain ⟨a, _, rfl⟩ := List.mem_map.1 hx
    simp [attribute_length]
  unfold layout_size
  rw [hp, hf, List.sum_eq_zero hz]
  simp

/-- C14: for every mesh whose face components are valid point indices and that has at
least one attribute whose element type is not one of Int8, UInt8, Int16, UInt16, Int32,
UInt32, Float32, Float64, `decode_mesh_direct_write` and `decode_mesh_to_buffer` return 0
for every destination length. -/
theorem unsupported_types_fail_fast (dec : Decoder) (data : List Nat) (s : CacheState)
    (handle : Nat) (mesh : Mesh) (out_ptr : Memory) (N : Nat) (p : PointAttribute)
    (hd : dec data = some mesh) (hc : s.g_mesh_cache handle = some mesh)
    (hvalid : ∀ f, f < mesh.num_faces → ∀ j, j < 3 → mesh.face f j < mesh.num_points)
    (hp : p ∈ mesh.attributes)
    (htype : p.data_type ≠ .DT_INT8 ∧ p.data_type ≠ .DT_UINT8 ∧ p.data_type ≠ .DT_INT16 ∧
      p.data_type ≠ .DT_UINT16 ∧ p.data_type ≠ .DT_INT32 ∧ p.data_type ≠ .DT_UINT32 ∧
      p.data_type ≠ .DT_FLOAT32 ∧ p.data_type ≠ .DT_FLOAT64) :
    (decode_mesh_direct_write dec data out_ptr N).1 = 0 ∧
    (decode_mesh_to_buffer s handle out_ptr N).1 = 0 := by
  have hw : writable p.data_type = false := by
    obtain ⟨n1, n2, n3, n4, n5, n6, n7, n8⟩ := htype
    cases hT : p.data_type <;> simp_all [writable]
  have key : ∀ (dec' : Decoder) (data' : List Nat), dec' data' = some mesh →
      (decode_mesh_direct_write dec' data' out_ptr N).1 = 0 := by
    intro dec' data' hd'
    by_cases hs : supported mesh ∧ layout_size mesh ≤ N
    · rw [direct_write_success dec' data' mesh out_ptr N hd' hs.1 hs.2]
      rcases hs.1 with h0 | hall
      · have hf : mesh.num_faces = 0 := by
          by_contra hne
          have := hvalid 0 (Nat.pos_of_ne_zero hne) 0 (by omega)
          omega
        exact layout_size_of_no_points mesh h0 hf
      · have := hall p hp
        rw [hw] at this
        exact absurd this (by decide)
    · exact direct_write_failure dec' data' mesh out_ptr N hd' hs
  refine ⟨key dec data hd, ?_⟩
  rw [to_buffer_eq_direct]
  exact key _ [] hc

/-- C14, at the triangle mesh with an Int16 attribute of id 2 and an Int64 attribute of
id 5: with 64 bytes of capacity both writers return 0, although the first byte of the
Int16 segment (offset 6) was written. -/
theorem unsupported_types_fail_fast_witness :
    (decode_mesh_direct_write (decoder_of mixed_mesh) [] filled 64).1 = 0 ∧
    (decode_mesh_to_buffer (cache_mesh (decoder_of mixed_mesh) [] CacheState.init).2 1
      filled 64).1 = 0 ∧
    (decode_mesh_direct_write (decoder_of mixed_mesh) [] filled 64).2 6 = 1 :=
  ⟨(unsupported_types_fail_fast (decoder_of mixed_mesh) []
      (cache_mesh (decoder_of mixed_mesh) [] CacheState.init).2 1 mixed_mesh filled 64
      (sample_attribute 5 .DT_INT64 1) rfl rfl (by decide) (List.mem_cons_self _ _)
      (by decide)).1,
    (unsupported_types_fail_fast (decoder_of mixed_mesh) []
      (cache_mesh (decoder_of mixed_mesh) [] CacheState.init).2 1 mixed_mesh filled 64
      (sample_attribute 5 .DT_INT64 1) rfl rfl (by decide) (List.mem_cons_self _ _)
      (by decide)).2,
    by decide⟩

/-! ## C15: release frame -/

theorem release_absent_eq (s : CacheState) (h : Nat) (habs : s.g_mesh_cache h = none) :
    release_mesh_cache h s = s := by
  cases s with
  | mk cache next =>
    simp only [release_mesh_cache, CacheState.mk.injEq, and_true]
    funext k
    by_cases hk : k = h
    · rw [if_pos hk, hk]
      exact habs.symm
    · rw [if_neg hk]

theorem release_other (s : CacheState) (h h' : Nat) (hne : h' ≠ h) :
    (release_mesh_cache h s).g_mesh_cache h' = s.g_mesh_cache h' := by
  simp [release_mesh_cache, hne]

/-- C15: for every cache state and handle `h`, `release_mesh_cache(h)` changes nothing when
`h` is absent (map and next-handle counter are the same); in every case it leaves the
counter unchanged, makes `h` absent, and every other handle `h'` still resolves to the same
mesh, so `get_mesh_config(h')` and `decode_mesh_to_buffer(h')` give the same results as
before the release. -/
theorem release_frame (s : CacheState) (h : Nat) :
    (s.g_mesh_cache h = none → release_mesh_cache h s = s) ∧
    (release_mesh_cache h s).g_mesh_cache h = none ∧
    (release_mesh_cache h s).g_next_handle = s.g_next_handle ∧
    ∀ h', h' ≠ h →
      (release_mesh_cache h s).g_mesh_cache h' = s.g_mesh_cache h' ∧
      (∀ config, get_mesh_config (release_mesh_cache h s) h' config =
        get_mesh_config s h' config) ∧
      (∀ out_ptr N, decode_mesh_to_buffer (release_mesh_cache h s) h' out_ptr N =
        decode_mesh_to_buffer s h' out_ptr N) := by
  refine ⟨release_absent_eq s h, release_absent s h, rfl, ?_⟩
  intro h' hne
  have e := release_other s h h' hne
  refine ⟨e, ?_, ?_⟩
  · intro config
    unfold get_mesh_config
    rw [e]
  · intro out_ptr N
    unfold decode_mesh_to_buffer
    rw [e]

/-- C15, at the state that holds the triangle mesh under the handles 1 and 2: releasing
handle 1 leaves the metadata of handle 2 as it was, and releasing the absent handle 7
changes nothing. -/
theorem release_frame_witness :
    get_mesh_config
      (release_mesh_cache 1
        (run_calls (decoder_of triangle_mesh) CacheState.init
          [CacheCall.cache [], CacheCall.cache []])) 2 MeshConfig.empty =
      get_mesh_config
        (run_calls (decoder_of triangle_mesh) CacheState.init
          [CacheCall.cache [], CacheCall.cache []]) 2 MeshConfig.empty ∧
    release_mesh_cache 7
      (run_calls (decoder_of triangle_mesh) CacheState.init
        [CacheCall.cache [], CacheCall.cache []]) =
      run_calls (decoder_of triangle_mesh) CacheState.init
        [CacheCall.cache [], CacheCall.cache []] :=
  ⟨((release_frame (run_calls (decoder_of triangle_mesh) CacheState.init
      [CacheCall.cache [], CacheCall.cache []]) 1).2.2.2 2 (by decide)).2.1 MeshConfig.empty,
    (release_frame (run_calls (decoder_of triangle_mesh) CacheState.init
      [CacheCall.cache [], CacheCall.cache []]) 7).1 rfl⟩

/-! ## C16: write-by-handle against a concurrent release -/

/-- Without an interleaved release the two steps of the writer are `decode_mesh_to_buffer`. -/
theorem writer_steps_eq (s : CacheState) (handle : Nat) (out_ptr : Memory) (out_len : Nat) :
    (run_schedule handle out_ptr out_len s [.writer_lookup, .writer_write]).writer =
      .returned (decode_mesh_to_buffer s handle out_ptr out_len) := by
  cases hc : s.g_mesh_cache handle with
  | none =>
    simp [run_schedule, RaceStep.apply, decode_mesh_to_buffer.lookup, decode_mesh_to_buffer, hc]
  | some mesh =>
    simp only [run_schedule, List.foldl_cons, List.foldl_nil, RaceStep.apply,
      decode_mesh_to_buffer.lookup, decode_mesh_to_buffer.write, decode_mesh_to_buffer, hc]
    rcases decode_mesh_to_buffer.write_indices out_len mesh { mem := out_ptr, out := 0 }
      with ⟨_ | _, c1⟩
    · rfl
    · simp only []
      rcases decode_mesh_to_buffer.write_attributes out_len mesh c1 with ⟨_ | _, c2⟩
      · rfl
      · rfl

/-- C16 (the code at the failing schedule): handle 1 holds the triangle mesh.  When the
release runs first the writer returns 0, and when the writer runs both its steps first it
returns 18; but when the release runs between the critical section of the writer and the
rest of the writer, the writer has found the entry (it does not return 0) and then reads
the mesh after the release destroyed it. -/
theorem write_races_with_release :
    (run_schedule 1 filled 32 (cache_mesh (decoder_of triangle_mesh) [] CacheState.init).2
      [.release, .writer_lookup, .writer_write]).returned_value = some 0 ∧
    (run_schedule 1 filled 32 (cache_mesh (decoder_of triangle_mesh) [] CacheState.init).2
      [.writer_lookup, .writer_write, .release]).returned_value = some 18 ∧
    (run_schedule 1 filled 32 (cache_mesh (decoder_of triangle_mesh) [] CacheState.init).2
      [.writer_lookup, .release]).returned_value = none ∧
    (run_schedule 1 filled 32 (cache_mesh (decoder_of triangle_mesh) [] CacheState.init).2
      [.writer_lookup, .release, .writer_write]).returned_value = none ∧
    (run_schedule 1 filled 32 (cache_mesh (decoder_of triangle_mesh) [] CacheState.init).2
      [.writer_lookup, .release, .writer_write]).read_destroyed = true :=
  ⟨by decide, by decide, by decide, by decide, by decide⟩

/-! ## C17: point-cloud output -/

theorem foldl_push (f : Nat → Nat) (l : List Nat) (out : List Nat) :
    l.foldl (fun out j => out ++ [f j]) out = out ++ l.map f := by
  induction l generalizing out with
  | nil => simp
  | cons j l ih => rw [List.foldl_cons, ih, List.map_cons, List.append_assoc, List.singleton_append]

theorem map_getD_map_range (n : Nat) (g : Nat → Nat) :
    (List.range n).map (fun j => ((List.range n).map g).getD j 0) = (List.range n).map g := by
  apply List.map_congr_left
  intro j hj
  have hj' := List.mem_range.1 hj
  rw [List.getD_eq_getElem _ _ (by simpa using hj')]
  simp

theorem map_getD_pad (v : List Nat) (n : Nat) (h : v.length ≤ n) :
    (List.range n).map (fun j => v.getD j 0) = v ++ List.replicate (n - v.length) 0 := by
  apply List.ext_getElem
  · simp
    omega
  · intro k h1 h2
    simp only [List.getElem_map, List.getElem_range]
    by_cases hk : k < v.length
    · rw [List.getElem_append_left hk]
      exact List.getD_eq_getElem _ _ hk
    · rw [List.getElem_append_right (by omega), List.getElem_replicate]
      exact List.getD_eq_default _ _ (by omega)

theorem foldl_points (attr : PositionAttribute) (l : List Nat) (out : List Nat)
    (hlen : ∀ i ∈ l, (attr.GetValue (attr.mapped_index i)).length ≤ 12) :
    l.foldl (fun (out : Option (List Nat)) (i : Nat) =>
        match out with
        | none => none
        | some out =>
          if 12 < (attr.GetValue (attr.mapped_index i)).length then none
          else
            some ((List.range 12).foldl (fun out j => out ++
              [((List.range 12).map
                (fun j => (attr.GetValue (attr.mapped_index i)).getD j 0)).getD j 0]) out))
        (some out) =
      some (out ++ l.flatMap (fun i =>
        (List.range 12).map (fun j => (attr.GetValue (attr.mapped_index i)).getD j 0))) := by
  induction l generalizing out with
  | nil => simp
  | cons i l ih =>
    have hi := hlen i (List.mem_cons_self i l)
    rw [List.foldl_cons]
    simp only [if_neg (Nat.not_lt.2 hi)]
    rw [foldl_push, map_getD_map_range, ih _ (fun k hk => hlen k (List.mem_cons_of_mem i hk)),
      List.flatMap_cons, List.append_assoc]

/-- The vector `decode_point_cloud` returns when no value is longer than the array. -/
theorem decode_point_cloud_eq (dec : PointCloudDecoder) (data : List Nat) (pc : PointCloud)
    (attr : PositionAttribute) (hd : dec data = some pc) (hp : pc.position = some attr)
    (hlen : ∀ i, i < pc.num_points → (attr.GetValue (attr.mapped_index i)).length ≤ 12) :
    decode_point_cloud dec data =
      some ((List.range pc.num_points).flatMap (fun i =>
        (List.range 12).map (fun j => (attr.GetValue (attr.mapped_index i)).getD j 0))) := by
  unfold decode_point_cloud
  rw [hd]
  simp only [hp]
  have h := foldl_points attr (List.range pc.num_points) []
    (fun i hi => hlen i (List.mem_range.1 hi))
  rw [List.nil_append] at h
  exact h

theorem drop_take_flatMap {α : Type} (f : α → List Nat) (n : Nat) (xs : List α)
    (hlen : ∀ x ∈ xs, (f x).length = n) (i : Nat) (x : α) (hx : xs[i]? = some x) :
    ((xs.flatMap f).drop (n * i)).take n = f x := by
  induction xs generalizing i with
  | nil => simp at hx
  | cons y ys ih =>
    have hy := hlen y (List.mem_cons_self y ys)
    cases i with
    | zero =>
      simp only [List.getElem?_cons_zero, Option.some.injEq] at hx
      rw [Nat.mul_zero, List.drop_zero, List.flatMap_cons, ← hx,
        List.take_append_of_le_length (by omega), ← hy, List.take_length]
    | succ i =>
      simp only [List.getElem?_cons_succ] at hx
      have e : n * (i + 1) = (f y).length + n * i := by rw [hy]; ring
      rw [List.flatMap_cons, e, List.drop_append,
        ih (fun z hz => hlen z (List.mem_cons_of_mem y hz)) i hx]

/-- C17 (as stated, refuted): the point cloud `short_position_cloud` has one point whose
position is stored as the 6 bytes `[1, 2, 3, 4, 5, 6]`; `decode_point_cloud` returns 12
bytes, the stored value followed by the six zero bytes of the array, so the group of
point 0 is not its position value. -/
theorem short_position_is_zero_padded :
    short_position_cloud.num_points = 1 ∧
    (short_position_cloud.position.map (fun attr => attr.GetValue (attr.mapped_index 0))) =
      some [1, 2, 3, 4, 5, 6] ∧
    decode_point_cloud (fun _ => some short_position_cloud) [] =
      some [1, 2, 3, 4, 5, 6, 0, 0, 0, 0, 0, 0] ∧
    (([1, 2, 3, 4, 5, 6, 0, 0, 0, 0, 0, 0] : List Nat).drop (12 * 0)).take 12 ≠
      [1, 2, 3, 4, 5, 6] :=
  ⟨rfl, rfl, by decide, by decide⟩

/-- C17 (amended): for every compressed input, `decode_point_cloud` returns an empty byte
sequence when decoding fails or the point cloud has no position attribute; otherwise, when
no position value has more than 12 bytes, it returns exactly `12 * num_points` bytes, the
`i`-th group of 12 bytes being the stored position value of point `i`, in point order,
followed by zero bytes up to 12, hence exactly that value when it is stored as 12 bytes
(three 4-byte values). -/
theorem point_cloud_output (dec : PointCloudDecoder) (data : List Nat) :
    (dec data = none → decode_point_cloud dec data = some []) ∧
    (∀ pc, dec data = some pc → pc.position = none →
      decode_point_cloud dec data = some []) ∧
    (∀ pc attr, dec data = some pc → pc.position = some attr →
      (∀ i, i < pc.num_points → (attr.GetValue (attr.mapped_index i)).length ≤ 12) →
      ∃ out, decode_point_cloud dec data = some out ∧
        out.length = 12 * pc.num_points ∧
        (∀ i, i < pc.num_points →
          (out.drop (12 * i)).take 12 =
            attr.GetValue (attr.mapped_index i) ++
              List.replicate (12 - (attr.GetValue (attr.mapped_index i)).length) 0) ∧
        (∀ i, i < pc.num_points → (attr.GetValue (attr.mapped_index i)).length = 12 →
          (out.drop (12 * i)).take 12 = attr.GetValue (attr.mapped_index i))) := by
  refine ⟨?_, ?_, ?_⟩
  · intro hd
    simp [decode_point_cloud, hd]
  · intro pc hd hp
    simp [decode_point_cloud, hd, hp]
  · intro pc attr hd hp hlen
    have hgroup : ∀ i, i < pc.num_points →
        (((List.range pc.num_points).flatMap (fun i =>
          (List.range 12).map
            (fun j => (attr.GetValue (attr.mapped_index i)).getD j 0))).drop (12 * i)).take 12 =
          attr.GetValue (attr.mapped_index i) ++
            List.replicate (12 - (attr.GetValue (attr.mapped_index i)).length) 0 := by
      intro i hi
      rw [drop_take_flatMap _ 12 (List.range pc.num_points) (fun x _ => by simp) i i
        (by simp [hi])]
      exact map_getD_pad _ 12 (hlen i hi)
    refine ⟨_, decode_point_cloud_eq dec data pc attr hd hp hlen, ?_, hgroup, ?_⟩
    · rw [length_flatMap_const _ _ 12 (fun i _ => by simp), List.length_range]
      ring
    · intro i hi h12
      rw [hgroup i hi, h12]
      simp

/-- C17 (amended), at a point cloud of 4 points: the result has 48 bytes, and the third
group of 12 bytes is the position of point 2; a failed decode gives the empty sequence. -/
theorem point_cloud_output_witness :
    (∃ out, decode_point_cloud (fun _ => some four_points) [] = some out ∧
      out.length = 48 ∧
      (out.drop 24).take 12 = [24, 25, 26, 27, 28, 29, 30, 31, 32, 33, 34, 35]) ∧
    decode_point_cloud (fun _ => none) [] = some [] := by
  obtain ⟨out, h1, h2, _, h4⟩ :=
    (point_cloud_output (fun _ => some four_points) []).2.2 four_points
      { mapped_index := fun i => i
        GetValue := fun i => (List.range 12).map (fun b => 12 * i + b) } rfl rfl
      (fun i _ => by simp)
  exact ⟨⟨out, h1, h2, (h4 2 (by decide) (by simp)).trans (by decide)⟩,
    (point_cloud_output (fun _ => none) []).1 rfl⟩

/-! ## C18: the direct and the cached writer -/

/-- C18: for every decoded mesh, every destination length `N` and every initial destination
content, `decode_mesh_direct_write` on the mesh and `decode_mesh_to_buffer` on a live handle
for that same mesh return the same value and leave the destination with the same bytes. -/
theorem direct_and_cached_writers_agree (dec : Decoder) (data : List Nat) (s : CacheState)
    (handle : Nat) (mesh : Mesh) (out_ptr : Memory) (N : Nat) (hd : dec data = some mesh)
    (hc : s.g_mesh_cache handle = some mesh) :
    (decode_mesh_to_buffer s handle out_ptr N).1 =
      (decode_mesh_direct_write dec data out_ptr N).1 ∧
    ∀ i, (decode_mesh_to_buffer s handle out_ptr N).2 i =
      (decode_mesh_direct_write dec data out_ptr N).2 i := by
  have e : decode_mesh_to_buffer s handle out_ptr N =
      decode_mesh_direct_write dec data out_ptr N := by
    rw [to_buffer_eq_direct, direct_write_eq _ [] mesh out_ptr N hc,
      direct_write_eq dec data mesh out_ptr N hd]
  rw [e]
  exact ⟨rfl, fun _ => rfl⟩

/-- C18, at the triangle mesh with 17 bytes of capacity, one byte too few: both writers
return 0 and leave the same byte at offset 16. -/
theorem direct_and_cached_writers_agree_witness :
    (decode_mesh_to_buffer (cache_mesh (decoder_of triangle_mesh) [] CacheState.init).2 1
      filled 17).1 = (decode_mesh_direct_write (decoder_of triangle_mesh) [] filled 17).1 ∧
    (decode_mesh_to_buffer (cache_mesh (decoder_of triangle_mesh) [] CacheState.init).2 1
      filled 17).2 16 = (decode_mesh_direct_write (decoder_of triangle_mesh) [] filled 17).2 16 :=
  ⟨(direct_and_cached_writers_agree (decoder_of triangle_mesh) []
      (cache_mesh (decoder_of triangle_mesh) [] CacheState.init).2 1 triangle_mesh filled 17
      rfl rfl).1,
    (direct_and_cached_writers_agree (decoder_of triangle_mesh) []
      (cache_mesh (decoder_of triangle_mesh) [] CacheState.init).2 1 triangle_mesh filled 17
      rfl rfl).2 16⟩

/-! ## C19: the scalar write -/

/-- C19: for every element type with size `s = sizeof_data_type(type)`, every cursor
position and every remaining capacity `r`, `write_scalar` (of either writer) returns false
and changes neither the cursor nor any destination byte when `s > r`; otherwise it returns
true, stores the `s` bytes of the value at the cursor position, advances the cursor by
exactly `s`, and leaves every destination byte outside those `s` bytes unchanged. -/
theorem write_scalar_bounds_checked (type : DataType) (src : Nat) (c : Cursor) (r : Nat) :
    (sizeof_data_type type > r →
      decode_mesh_direct_write.write_scalar (c.out + r) src type c = (false, c) ∧
      decode_mesh_to_buffer.write_scalar (c.out + r) src type c = (false, c)) ∧
    (sizeof_data_type type ≤ r →
      (decode_mesh_direct_write.write_scalar (c.out + r) src type c).1 = true ∧
      (decode_mesh_direct_write.write_scalar (c.out + r) src type c).2.out =
        c.out + sizeof_data_type type ∧
      (∀ i, i < sizeof_data_type type →
        (decode_mesh_direct_write.write_scalar (c.out + r) src type c).2.mem (c.out + i) =
          src / 256 ^ i % 256) ∧
      (∀ i, i < c.out ∨ c.out + sizeof_data_type type ≤ i →
        (decode_mesh_direct_write.write_scalar (c.out + r) src type c).2.mem i = c.mem i) ∧
      decode_mesh_to_buffer.write_scalar (c.out + r) src type c =
        decode_mesh_direct_write.write_scalar (c.out + r) src type c) := by
  constructor
  · intro h
    have hgt : c.out + sizeof_data_type type > c.out + r := by omega
    exact ⟨by simp only [decode_mesh_direct_write.write_scalar, if_pos hgt],
      by simp only [decode_mesh_to_buffer.write_scalar, if_pos hgt]⟩
  · intro h
    have hle : ¬ (c.out + sizeof_data_type type > c.out + r) := by omega
    have e : decode_mesh_direct_write.write_scalar (c.out + r) src type c =
        (true, Cursor.mk
          (memcpy c.mem c.out (object_bytes (sizeof_data_type type) src)
            (sizeof_data_type type))
          (c.out + sizeof_data_type type)) := by
      simp only [decode_mesh_direct_write.write_scalar, if_neg hle]
    refine ⟨?_, ?_, ?_, ?_, rfl⟩
    · rw [e]
    · rw [e]
    · intro i hi
      rw [e]
      simp only [memcpy]
      rw [if_pos (by omega), Nat.add_sub_cancel_left, getD_object_bytes _ _ _ hi]
    · intro i hi
      rw [e]
      simp only [memcpy]
      rw [if_neg (by omega)]

/-- C19, for an Int32 scalar with bit pattern `0x01020304` at cursor 5: with 3 bytes of
remaining capacity the write fails and the cursor stays at 5; with 4 bytes it succeeds, the
cursor is 9 and the byte at offset 6 is 3. -/
theorem write_scalar_bounds_checked_witness :
    (decode_mesh_direct_write.write_scalar (5 + 3) 16909060 .DT_INT32
      { mem := filled, out := 5 }).1 = false ∧
    (decode_mesh_direct_write.write_scalar (5 + 3) 16909060 .DT_INT32
      { mem := filled, out := 5 }).2.out = 5 ∧
    (decode_mesh_direct_write.write_scalar (5 + 4) 16909060 .DT_INT32
      { mem := filled, out := 5 }).2.out = 9 ∧
    (decode_mesh_direct_write.write_scalar (5 + 4) 16909060 .DT_INT32
      { mem := filled, out := 5 }).2.mem (5 + 1) = 3 :=
  ⟨congrArg Prod.fst ((write_scalar_bounds_checked .DT_INT32 16909060
      { mem := filled, out := 5 } 3).1 (by decide)).1,
    congrArg (fun x => x.2.out) ((write_scalar_bounds_checked .DT_INT32 16909060
      { mem := filled, out := 5 } 3).1 (by decide)).1,
    ((write_scalar_bounds_checked .DT_INT32 16909060
      { mem := filled, out := 5 } 4).2 (by decide)).2.1,
    (((write_scalar_bounds_checked .DT_INT32 16909060
      { mem := filled, out := 5 } 4).2 (by decide)).2.2.1 1 (by decide)).trans (by decide)⟩

/-! ## C20: the two size predictions -/

/-- When the layout fits in 32 bits, the entry at position `k` of the metadata starts at
`index_length` plus the lengths of the `k` earlier entries. -/
theorem config_entry_offset (s : CacheState) (handle : Nat) (mesh : Mesh)
    (hc : s.g_mesh_cache handle = some mesh) (hfit : layout_size mesh < 2 ^ 32) (k : Nat)
    (a : MeshAttribute)
    (hk : (get_mesh_config s handle MeshConfig.empty).2.attributes[k]? = some a) :
    a.offset = (get_mesh_config s handle MeshConfig.empty).2.index_length +
      sum_lengths ((get_mesh_config s handle MeshConfig.empty).2.attributes.take k) := by
  have hi := index_bytes_le_layout_size mesh
  have hsum := sum_attribute_order mesh.num_points mesh.attributes
  have hlay : layout_size mesh = mesh.num_faces * 3 * index_width mesh +
      ((attribute_order mesh.attributes).map (attribute_length mesh.num_points)).sum := by
    rw [hsum]
    rfl
  have hlt : ∀ a ∈ attribute_order mesh.attributes,
      attribute_length mesh.num_points a < 2 ^ 32 := by
    intro a ha
    have := attribute_length_le_layout_size mesh a
      ((attribute_order_perm mesh.attributes).mem_iff.1 ha)
    omega
  have hattrs := get_mesh_config_attributes s handle mesh hc
  rw [config_index_length mesh (by omega)] at hattrs
  have hidx : (get_mesh_config s handle MeshConfig.empty).2.index_length =
      mesh.num_faces * 3 * index_width mesh := by
    rw [get_mesh_config_eq s handle MeshConfig.empty mesh hc]
    exact config_index_length mesh (by omega)
  rw [hattrs] at hk ⊢
  rw [plan_entries_offset mesh.num_points (attribute_order mesh.attributes) _ (by omega)
    k a hk, take_plan_lengths mesh.num_points _ _ hlt k, hidx]

/-- C20 (as stated, refuted): the mesh `two_gib_mesh` has `2 ^ 31` points and one
1-component UInt8 attribute, so every size is within 32 bits; `get_mesh_config` reports
`index_length` 0 and one attribute of length `2 ^ 31`, while `debug_mesh_buffer_len` with a
64-bit `size_t` converts the `int` point count `-2 ^ 31` and returns `2 ^ 64 - 2 ^ 31`. -/
theorem size_predictions_differ_at_two_gib :
    layout_size two_gib_mesh = 2 ^ 31 ∧
    (get_mesh_config (cache_mesh (decoder_of two_gib_mesh) [] CacheState.init).2 1
      MeshConfig.empty).2.index_length +
      sum_lengths (get_mesh_config (cache_mesh (decoder_of two_gib_mesh) []
        CacheState.init).2 1 MeshConfig.empty).2.attributes = 2 ^ 31 ∧
    debug_mesh_buffer_len 64 (decoder_of two_gib_mesh) [] = 2 ^ 64 - 2 ^ 31 :=
  ⟨by decide, by decide, by decide⟩

/-- C20 (amended): for every decoded mesh whose layout fits in 32 bits and whose point
count is within the range of `int` (attributes of any element type, in any exposed order),
and a `size_t` of at least 32 bits, `debug_mesh_buffer_len`, which sums the attribute sizes
in the exposed order, equals `index_length` plus the sum of the attribute lengths that
`get_mesh_config` reports for the same mesh, and also equals the last attribute's offset
plus its length when the mesh has at least one attribute. -/
theorem size_predictions_agree (size_bits : Nat) (dec : Decoder) (data : List Nat)
    (s : CacheState) (handle : Nat) (mesh : Mesh) (hd : dec data = some mesh)
    (hc : s.g_mesh_cache handle = some mesh) (hfit : layout_size mesh < 2 ^ 32)
    (hpoints : mesh.num_points < 2 ^ 31) (hbits : 32 ≤ size_bits) :
    debug_mesh_buffer_len size_bits dec data =
      (get_mesh_config s handle MeshConfig.empty).2.index_length +
        sum_lengths (get_mesh_config s handle MeshConfig.empty).2.attributes ∧
    ∀ a, (get_mesh_config s handle MeshConfig.empty).2.attributes.getLast? = some a →
      debug_mesh_buffer_len size_bits dec data = a.offset + a.length := by
  have hpow : (2 : Nat) ^ 32 ≤ 2 ^ size_bits := Nat.pow_le_pow_right (by decide) hbits
  have hfaces : mesh.num_faces * 3 < 2 ^ 31 := by
    have h1 := index_bytes_le_layout_size mesh
    have h2 : mesh.num_faces * 3 * 2 ≤ mesh.num_faces * 3 * index_width mesh :=
      Nat.mul_le_mul_left _ (two_le_index_width mesh)
    omega
  have hdebug : debug_mesh_buffer_len size_bits dec data = layout_size mesh := by
    rw [debug_mesh_buffer_len_eq size_bits dec data mesh hd hfaces hpoints]
    exact Nat.mod_eq_of_lt (by omega)
  have htotal := config_total s handle mesh hc hfit
  refine ⟨by rw [hdebug, htotal], ?_⟩
  intro a ha
  have hk : (get_mesh_config s handle MeshConfig.empty).2.attributes[
      (get_mesh_config s handle MeshConfig.empty).2.attributes.length - 1]? = some a := by
    rw [← List.getLast?_eq_getElem?]
    exact ha
  have hoff := config_entry_offset s handle mesh hc hfit _ a hk
  have hsplit := List.dropLast_append_getLast? a ha
  rw [← List.dropLast_eq_take] at hoff
  rw [hdebug, ← htotal, hoff]
  have hsl : sum_lengths (get_mesh_config s handle MeshConfig.empty).2.attributes =
      sum_lengths (get_mesh_config s handle MeshConfig.empty).2.attributes.dropLast +
        a.length := by
    conv_lhs => rw [← hsplit]
    simp [sum_lengths]
  rw [hsl]
  omega

/-- C20 (amended), at the triangle mesh with a 64-bit `size_t`: the planner predicts 18
bytes, the metadata adds up to 18, and the last entry ends at 18. -/
theorem size_predictions_agree_witness :
    debug_mesh_buffer_len 64 (decoder_of triangle_mesh) [] = 18 ∧
    debug_mesh_buffer_len 64 (decoder_of triangle_mesh) [] =
      (get_mesh_config (cache_mesh (decoder_of triangle_mesh) [] CacheState.init).2 1
        MeshConfig.empty).2.index_length +
      sum_lengths (get_mesh_config (cache_mesh (decoder_of triangle_mesh) []
        CacheState.init).2 1 MeshConfig.empty).2.attributes ∧
    debug_mesh_buffer_len 64 (decoder_of triangle_mesh) [] = 12 + 6 :=
  ⟨by decide,
    (size_predictions_agree 64 (decoder_of triangle_mesh) []
      (cache_mesh (decoder_of triangle_mesh) [] CacheState.init).2 1 triangle_mesh rfl rfl
      (by decide) (by decide) (by decide)).1,
    (size_predictions_agree 64 (decoder_of triangle_mesh) []
      (cache_mesh (decoder_of triangle_mesh) [] CacheState.init).2 1 triangle_mesh rfl rfl
      (by decide) (by decide) (by decide)).2
      { dim := 2, unique_id := 5, data_type := 1, offset := 12, length := 6 } (by decide)⟩

end DracoDecoder
